import Mathlib

/-! # adb-probe: descriptor reader and ADB interface classifier

A shallow embedding of `src/adb-probe.c` (`read_descriptor`, `read_descriptors`)
and theorems about it.

Modelling conventions.

* A `uint8_t` is a `Byte` (`Fin 256`); where C promotes it to `int` the model takes
  `.val : Nat`.
* The `FILE*` is the list of bytes not yet read.  `fread` transfers
  `min (size * nmemb) available` bytes and returns the number of complete items.
  I/O errors other than end of file are outside the model.
* `descriptorBuffer` is a `List Byte`; it starts as `List.replicate 256 0` (the
  `memset`).  `poke` copies bytes into it, `peek` reads one byte.
* `syslog` output of `read_descriptor` is the field `log`; the buffer offsets each
  `fread` stores to are recorded in the field `stores`.
* `fopen` is represented by its result: `none` for `NULL`, `some bytes` for an opened
  device file.  The formatting of the file name is outside the model.
-/

set_option linter.unusedVariables false

namespace AdbProbe

/-- One `uint8_t`. -/
abbrev Byte := Fin 256

/-! ## Constants of the source -/

@[reducible, simp] def DEVICE_DESCRIPTOR_TYPE : Nat := 1
@[reducible, simp] def CFG_DESCRIPTOR_TYPE : Nat := 2
@[reducible, simp] def INTERFACE_DESCRIPTOR_TYPE : Nat := 4
@[reducible, simp] def ENDPOINT_DESCRIPTOR_TYPE : Nat := 5

@[reducible, simp] def ADB_INTERFACE_CLASS : Nat := 0xFF
@[reducible, simp] def ADB_INTERFACE_SUBCLASS : Nat := 0x42
@[reducible, simp] def ADB_INTERFACE_PROTOCOL : Nat := 0x1

/-- The value of `sizeof(usb_descriptor)`: two `uint8_t` fields. -/
@[reducible, simp] def sizeof_usb_descriptor : Nat := 2

/-- The value of `sizeof(descriptorBuffer)`. -/
@[reducible, simp] def sizeof_descriptorBuffer : Nat := 256

/-! Field offsets of the descriptor structs (every field before them is a `uint8_t`,
so there is no padding). -/

@[reducible, simp] def offsetof_bLength : Nat := 0
@[reducible, simp] def offsetof_bDescriptorType : Nat := 1
@[reducible, simp] def offsetof_bInterfaceClass : Nat := 5
@[reducible, simp] def offsetof_bInterfaceSubClass : Nat := 6
@[reducible, simp] def offsetof_bInterfaceProtocol : Nat := 7
@[reducible, simp] def offsetof_bEndpointAddress : Nat := 2
@[reducible, simp] def offsetof_bmAttributes : Nat := 3

/-! ## Memory and stream primitives -/

/-- Copy `data` into `buf` starting at offset `off`, byte by byte. -/
def poke : List Byte → Nat → List Byte → List Byte
  | buf, _, [] => buf
  | buf, off, b :: bs => poke (buf.set off b) (off + 1) bs

/-- Read the byte of `buf` at offset `off`. -/
def peek (buf : List Byte) (off : Nat) : Byte := buf.getD off 0

/-- What one `fread(ptr, size, nmemb, stream)` call does. -/
structure FreadResult where
  /-- The return value: the number of complete items read. -/
  items : Nat
  /-- The bytes transferred to `ptr`, in order. -/
  data : List Byte
  /-- The bytes of the stream that remain unread. -/
  stream : List Byte

/-- The call `fread(ptr, size, nmemb, stream)` on a stream with `stream` left to read. -/
def fread (size nmemb : Nat) (stream : List Byte) : FreadResult :=
  let data := stream.take (size * nmemb)
  { items := data.length / size, data := data, stream := stream.drop (size * nmemb) }

/-! ## `read_descriptor` -/

/-- What one call of `read_descriptor` leaves behind. -/
structure ReadResult where
  /-- The return value. -/
  ok : Bool
  /-- The unread rest of the stream after the call. -/
  usbDevice : List Byte
  /-- The buffer after the call. -/
  buffer : List Byte
  /-- The `syslog` messages of the call. -/
  log : List String
  /-- The buffer offsets the call stored to, in order. -/
  stores : List Nat

/-- The expression `descriptorLength - sizeof(usb_descriptor)` that initialises
`remainingBytes`.  It is evaluated only after the check `descriptorLength < 2` failed, where
the C subtraction cannot wrap and agrees with the subtraction of naturals. -/
@[reducible, simp] def remainingBytes (descriptorLength : Nat) : Nat :=
  descriptorLength - sizeof_usb_descriptor

/-- The function `read_descriptor(usbDevice, buffer)`. -/
def read_descriptor (usbDevice : List Byte) (buffer : List Byte) : ReadResult :=
  let hdr := fread sizeof_usb_descriptor 1 usbDevice
  let buffer1 := poke buffer 0 hdr.data
  let stores1 := List.range hdr.data.length
  if hdr.items ≠ 1 then
    { ok := false, usbDevice := hdr.stream, buffer := buffer1, log := [], stores := stores1 }
  else
    let descriptorLength : Nat := (peek buffer1 offsetof_bLength).val
    if descriptorLength < 2 then
      { ok := false, usbDevice := hdr.stream, buffer := buffer1,
        log := ["Descriptor length too short"], stores := stores1 }
    else
      let remainingBytes : Nat := remainingBytes descriptorLength
      let body := fread 1 remainingBytes hdr.stream
      let buffer2 := poke buffer1 sizeof_usb_descriptor body.data
      let stores2 := stores1 ++ (List.range body.data.length).map (sizeof_usb_descriptor + ·)
      if body.items ≠ remainingBytes then
        { ok := false, usbDevice := body.stream, buffer := buffer2,
          log := ["Failed to read descriptor body"], stores := stores2 }
      else
        { ok := true, usbDevice := body.stream, buffer := buffer2, log := [], stores := stores2 }

/-! ## `read_descriptors` -/

/-- The three flags of `read_descriptors`. -/
structure Flags where
  withinAdbInterface : Bool
  gotBulkIn : Bool
  gotBulkOut : Bool
  deriving DecidableEq

/-- The flags as they are initialised before the loop. -/
def Flags.init : Flags :=
  { withinAdbInterface := false, gotBulkIn := false, gotBulkOut := false }

/-- The body of the `while` loop of `read_descriptors`, run on the buffer a successful
`read_descriptor` left.  The second component tells whether `break` was executed. -/
def classify (descriptorBuffer : List Byte) (fl : Flags) : Flags × Bool :=
  let bDescriptorType : Nat := (peek descriptorBuffer offsetof_bDescriptorType).val
  if bDescriptorType = CFG_DESCRIPTOR_TYPE then
    ({ fl with withinAdbInterface := false }, false)
  else if bDescriptorType = INTERFACE_DESCRIPTOR_TYPE then
    if (peek descriptorBuffer offsetof_bInterfaceClass).val = ADB_INTERFACE_CLASS
        ∧ (peek descriptorBuffer offsetof_bInterfaceSubClass).val = ADB_INTERFACE_SUBCLASS
        ∧ (peek descriptorBuffer offsetof_bInterfaceProtocol).val = ADB_INTERFACE_PROTOCOL then
      ({ fl with withinAdbInterface := true }, false)
    else
      ({ fl with withinAdbInterface := false }, false)
  else if bDescriptorType = ENDPOINT_DESCRIPTOR_TYPE ∧ fl.withinAdbInterface = true then
    let fl1 : Flags :=
      if (peek descriptorBuffer offsetof_bmAttributes).val &&& 0b11 = 0b10 then
        if (peek descriptorBuffer offsetof_bEndpointAddress).val >>> 7 ≠ 0 then
          { fl with gotBulkIn := true }
        else
          { fl with gotBulkOut := true }
      else fl
    if fl1.gotBulkIn = true ∧ fl1.gotBulkOut = true then (fl1, true) else (fl1, false)
  else
    (fl, false)

/-- How the `while` loop was left. -/
inductive LoopExit where
  /-- The loop was never entered: `fopen` returned `NULL`. -/
  | notOpened
  /-- The call `read_descriptor` returned `false`. -/
  | readFailed
  /-- The `break` was executed. -/
  | earlyExit
  /-- The iteration budget of the model ran out (never the case for `read_descriptors`,
  see `read_descriptors_exit_ne_outOfFuel`). -/
  | outOfFuel
  deriving DecidableEq

/-- Everything observable when `read_descriptors` returns. -/
structure Outcome where
  /-- The return value. -/
  result : Bool
  /-- The flags when the loop was left. -/
  flags : Flags
  /-- How the loop was left. -/
  exit : LoopExit
  /-- The unread rest of the stream at `fclose`. -/
  usbDevice : List Byte
  /-- The buffer when the loop was left. -/
  descriptorBuffer : List Byte
  /-- The number of `read_descriptor` calls that returned `true`. -/
  records : Nat

/-- The return expression `gotBulkIn && gotBulkOut && withinAdbInterface`. -/
def Flags.result (fl : Flags) : Bool :=
  fl.gotBulkIn && fl.gotBulkOut && fl.withinAdbInterface

/-- The `while` loop of `read_descriptors` with an iteration budget. -/
def loop : Nat → List Byte → List Byte → Flags → Nat → Outcome
  | 0, usbDevice, descriptorBuffer, fl, n =>
    { result := fl.result, flags := fl, exit := .outOfFuel, usbDevice := usbDevice,
      descriptorBuffer := descriptorBuffer, records := n }
  | fuel + 1, usbDevice, descriptorBuffer, fl, n =>
    let r := read_descriptor usbDevice descriptorBuffer
    if r.ok = true then
      let step := classify r.buffer fl
      if step.2 = true then
        { result := step.1.result, flags := step.1, exit := .earlyExit,
          usbDevice := r.usbDevice, descriptorBuffer := r.buffer, records := n + 1 }
      else
        loop fuel r.usbDevice r.buffer step.1 (n + 1)
    else
      { result := fl.result, flags := fl, exit := .readFailed, usbDevice := r.usbDevice,
        descriptorBuffer := r.buffer, records := n }

/-- The function `read_descriptors`, given the result of its `fopen`. -/
def read_descriptors (opened : Option (List Byte)) : Outcome :=
  match opened with
  | none =>
    { result := false, flags := Flags.init, exit := .notOpened, usbDevice := [],
      descriptorBuffer := [], records := 0 }
  | some usbDevice =>
    loop (usbDevice.length + 1) usbDevice (List.replicate sizeof_descriptorBuffer 0)
      Flags.init 0

/-! ## Wire format of one record (used to state the theorems) -/

/-- The bytes `r` are exactly one record: at least the two header bytes, and the first
byte (`bLength`) is the number of bytes of the record. -/
def IsRecord (r : List Byte) : Prop :=
  2 ≤ r.length ∧ (r.getD 0 0).val = r.length

instance (r : List Byte) : Decidable (IsRecord r) := by
  unfold IsRecord; infer_instance

/-- The byte of record `r` at offset `off`, as a number. -/
def field (r : List Byte) (off : Nat) : Nat := (r.getD off 0).val

/-- A Configuration record: one record whose type byte is 2. -/
def IsConfiguration (r : List Byte) : Prop :=
  IsRecord r ∧ field r 1 = 2

/-- An Interface record (type byte 4) of at least 8 bytes. -/
def IsInterface (r : List Byte) : Prop :=
  IsRecord r ∧ field r 1 = 4 ∧ 8 ≤ r.length

/-- The class, subclass and protocol bytes of `r` (offsets 5, 6, 7) are `0xFF/0x42/0x01`. -/
def MatchesAdb (r : List Byte) : Prop :=
  field r 5 = 0xFF ∧ field r 6 = 0x42 ∧ field r 7 = 0x01

/-- An Endpoint record (type byte 5) of at least 4 bytes. -/
def IsEndpoint (r : List Byte) : Prop :=
  IsRecord r ∧ field r 1 = 5 ∧ 4 ≤ r.length

/-- The attributes byte of `r` (offset 3) has low two bits `0b10`. -/
def IsBulk (r : List Byte) : Prop :=
  field r 3 &&& 0b11 = 0b10

/-- Bit 7 of the address byte of `r` (offset 2) is set. -/
def DirIn (r : List Byte) : Prop :=
  (field r 2).testBit 7 = true

/-- The bytes `s` begin with a structurally bad record: a header cut after one byte, a
length byte below 2, or fewer bytes than the length byte declares. -/
def IsBadRecord (s : List Byte) : Prop :=
  s.length = 1 ∨ (2 ≤ s.length ∧ field s 0 < 2)
    ∨ (2 ≤ s.length ∧ 2 ≤ field s 0 ∧ s.length < field s 0)

instance (s : List Byte) : Decidable (IsBadRecord s) := by
  unfold IsBadRecord; infer_instance

/-- The byte at offset `i` of the latest record of `recs` (in stream order) that is longer
than `i`, and zero when no record of `recs` is. -/
def staleByte (recs : List (List Byte)) (i : Nat) : Byte :=
  match recs.reverse.find? (fun p => decide (i < p.length)) with
  | some p => p.getD i 0
  | none => 0

instance (r : List Byte) : Decidable (IsConfiguration r) := by
  unfold IsConfiguration; infer_instance

instance (r : List Byte) : Decidable (IsInterface r) := by
  unfold IsInterface; infer_instance

instance (r : List Byte) : Decidable (MatchesAdb r) := by
  unfold MatchesAdb; infer_instance

instance (r : List Byte) : Decidable (IsEndpoint r) := by
  unfold IsEndpoint; infer_instance

instance (r : List Byte) : Decidable (IsBulk r) := by
  unfold IsBulk; infer_instance

instance (r : List Byte) : Decidable (DirIn r) := by
  unfold DirIn; infer_instance

/-- The records that belong to an Interface record followed by `rest`: those before the
next Interface or Configuration record. -/
def interfaceBody (rest : List (List Byte)) : List (List Byte) :=
  rest.takeWhile (fun r => decide (field r 1 ≠ 4 ∧ field r 1 ≠ 2))

/-- Some Interface record of `recs` matches the ADB triple and has, among the records that
belong to it, both a bulk IN Endpoint record and a bulk OUT Endpoint record.  An interface
lies inside one configuration, so this says that some single configuration contains a
matching interface with both bulk endpoints. -/
def hasCompleteAdbInterface : List (List Byte) → Bool
  | [] => false
  | r :: rest =>
    (decide (IsInterface r ∧ MatchesAdb r)
        && (interfaceBody rest).any (fun e => decide (IsEndpoint e ∧ IsBulk e ∧ DirIn e))
        && (interfaceBody rest).any (fun e => decide (IsEndpoint e ∧ IsBulk e ∧ ¬ DirIn e)))
      || hasCompleteAdbInterface rest

/-- The records `recs` end inside a matching interface: some Interface record of `recs` has
the ADB triple and no Interface or Configuration record follows it in `recs`. -/
def InsideAdb (recs : List (List Byte)) : Prop :=
  ∃ (pre : List (List Byte)) (itf : List Byte) (mid : List (List Byte)),
    recs = pre ++ itf :: mid ∧ field itf 1 = 4 ∧ MatchesAdb itf
      ∧ ∀ m ∈ mid, field m 1 ≠ 4 ∧ field m 1 ≠ 2

/-- The records `recs` hold a bulk Endpoint record that lies inside a matching interface and
whose address bit 7 is set (`dirIn = true`) or clear (`dirIn = false`). -/
def SeenBulk (dirIn : Bool) (recs : List (List Byte)) : Prop :=
  ∃ (pre : List (List Byte)) (e : List Byte) (post : List (List Byte)),
    recs = pre ++ e :: post ∧ InsideAdb pre ∧ field e 1 = 5 ∧ IsBulk e
      ∧ (DirIn e ↔ dirIn = true)

/-- What the flags may say after the records `done` have been processed. -/
def FlagsJustified (done : List (List Byte)) (fl : Flags) : Prop :=
  (fl.withinAdbInterface = true → InsideAdb done)
    ∧ (fl.gotBulkIn = true → SeenBulk true done)
    ∧ (fl.gotBulkOut = true → SeenBulk false done)
    ∧ ¬ (fl.gotBulkIn = true ∧ fl.gotBulkOut = true)

/-! ## Lemmas on the primitives -/

theorem IsRecord.two_le {r : List Byte} (h : IsRecord r) : 2 ≤ r.length := h.1

theorem length_poke (data : List Byte) :
    ∀ (buf : List Byte) (off : Nat), (poke buf off data).length = buf.length := by
  induction data with
  | nil => intro buf off; rfl
  | cons b bs ih => intro buf off; simp [poke, ih]

theorem peek_poke (data : List Byte) :
    ∀ (buf : List Byte) (off i : Nat),
      peek (poke buf off data) i =
        if off ≤ i ∧ i < off + data.length ∧ i < buf.length then data.getD (i - off) 0
        else peek buf i := by
  induction data with
  | nil =>
    intro buf off i
    have : ¬ (off ≤ i ∧ i < off + ([] : List Byte).length ∧ i < buf.length) := by
      simp only [List.length_nil]; omega
    rw [if_neg this]; rfl
  | cons b bs ih =>
    intro buf off i
    simp only [poke, ih, List.length_set, List.length_cons]
    by_cases h1 : off + 1 ≤ i ∧ i < off + 1 + bs.length ∧ i < buf.length
    · have h2 : off ≤ i ∧ i < off + (bs.length + 1) ∧ i < buf.length := by omega
      rw [if_pos h1, if_pos h2]
      obtain ⟨k, hk⟩ : ∃ k, i - off = k + 1 := ⟨i - off - 1, by omega⟩
      have hk2 : i - (off + 1) = k := by omega
      rw [hk, hk2]; rfl
    · rw [if_neg h1]
      by_cases h3 : i = off
      · subst h3
        by_cases h4 : i < buf.length
        · have h2 : i ≤ i ∧ i < i + (bs.length + 1) ∧ i < buf.length := by omega
          rw [if_pos h2]
          simp [peek, List.getD_eq_getElem?_getD, List.getElem?_set, h4]
        · have h2 : ¬ (i ≤ i ∧ i < i + (bs.length + 1) ∧ i < buf.length) := by omega
          rw [if_neg h2]
          have h6 : buf[i]? = none := List.getElem?_eq_none (by omega)
          simp [peek, List.getD_eq_getElem?_getD, List.getElem?_set, h4, h6]
      · have h2 : ¬ (off ≤ i ∧ i < off + (bs.length + 1) ∧ i < buf.length) := by omega
        rw [if_neg h2]
        have h5 : off ≠ i := fun h => h3 h.symm
        simp [peek, List.getD_eq_getElem?_getD, List.getElem?_set, h5]

theorem poke_append (a : List Byte) :
    ∀ (b buf : List Byte) (off : Nat),
      poke buf off (a ++ b) = poke (poke buf off a) (off + a.length) b := by
  induction a with
  | nil => intro b buf off; simp [poke]
  | cons x xs ih =>
    intro b buf off
    have h : off + (x :: xs).length = off + 1 + xs.length := by
      simp only [List.length_cons]; omega
    rw [h]
    show poke (buf.set off x) (off + 1) (xs ++ b) = poke (poke (buf.set off x) (off + 1) xs) _ b
    exact ih b (buf.set off x) (off + 1)

/-! ## Lemmas on `read_descriptor` -/

theorem read_descriptor_nil (buf : List Byte) :
    read_descriptor [] buf =
      { ok := false, usbDevice := [], buffer := buf, log := [], stores := [] } := by
  simp [read_descriptor, fread, poke]

theorem read_descriptor_single (a : Byte) (buf : List Byte) :
    read_descriptor [a] buf =
      { ok := false, usbDevice := [], buffer := buf.set 0 a, log := [], stores := [0] } := by
  simp [read_descriptor, fread, poke, List.range_succ]

theorem peek_header (a b : Byte) (buf : List Byte) (h : 0 < buf.length) :
    peek (poke buf 0 [a, b]) 0 = a := by
  rw [peek_poke]; simp [h]

theorem read_descriptor_short_length (a b : Byte) (t buf : List Byte) (hb : 0 < buf.length)
    (ha : a.val < 2) :
    read_descriptor (a :: b :: t) buf =
      { ok := false, usbDevice := t, buffer := poke buf 0 [a, b],
        log := ["Descriptor length too short"], stores := [0, 1] } := by
  have hp := peek_header a b buf hb
  simp [read_descriptor, fread, hp, ha, List.range_succ]

theorem read_descriptor_short_body (a b : Byte) (t buf : List Byte) (hb : 0 < buf.length)
    (ha : 2 ≤ a.val) (ht : t.length < a.val - 2) :
    (read_descriptor (a :: b :: t) buf).ok = false
      ∧ (read_descriptor (a :: b :: t) buf).usbDevice = []
      ∧ (read_descriptor (a :: b :: t) buf).log = ["Failed to read descriptor body"] := by
  have hp := peek_header a b buf hb
  have h1 : ¬ a.val < 2 := by omega
  have h2 : ¬ (a.val - 2 ≤ t.length) := by omega
  have h3 : t.length ≤ a.val - 2 := by omega
  have h4 : t.length ≠ a.val - 2 := by omega
  simp [read_descriptor, fread, hp, h1, h2, h3, h4]

theorem read_descriptor_whole (a b : Byte) (t buf : List Byte) (hb : 0 < buf.length)
    (ha : 2 ≤ a.val) (ht : a.val - 2 ≤ t.length) :
    read_descriptor (a :: b :: t) buf =
      { ok := true, usbDevice := t.drop (a.val - 2),
        buffer := poke buf 0 (a :: b :: t.take (a.val - 2)), log := [],
        stores := List.range a.val } := by
  have hp := peek_header a b buf hb
  have h1 : ¬ a.val < 2 := by omega
  have hpk : poke (poke buf 0 [a, b]) 2 (List.take (a.val - 2) t)
      = poke buf 0 (a :: b :: t.take (a.val - 2)) := by
    have := poke_append [a, b] (t.take (a.val - 2)) buf 0
    simpa using this.symm
  have hr : List.range 2 ++ List.map (fun x => 2 + x) (List.range (a.val - 2))
      = List.range a.val := by
    rw [← List.range_add]; congr 1; omega
  simp [read_descriptor, fread, hp, h1, ht, hpk, hr]

theorem read_descriptor_record (r rest buf : List Byte) (hr : IsRecord r)
    (hb : 0 < buf.length) :
    read_descriptor (r ++ rest) buf =
      { ok := true, usbDevice := rest, buffer := poke buf 0 r, log := [],
        stores := List.range r.length } := by
  obtain ⟨hlen, hfirst⟩ := hr
  match r, hlen, hfirst with
  | a :: b :: t, _, hfirst =>
    have ha : a.val = t.length + 2 := by simpa using hfirst
    have h := read_descriptor_whole a b (t ++ rest) buf hb (by omega)
      (by simp only [List.length_append]; omega)
    have e : a.val - 2 = t.length := by omega
    rw [List.cons_append, List.cons_append, h, e, List.drop_left, List.take_left, ha]
    rfl

theorem peek_poke_record (r buf : List Byte) (i : Nat) (hi : i < r.length)
    (hb : i < buf.length) : (peek (poke buf 0 r) i).val = field r i := by
  rw [peek_poke]
  have : 0 ≤ i ∧ i < 0 + r.length ∧ i < buf.length := by omega
  rw [if_pos this]; rfl

theorem peek_poke_beyond (r buf : List Byte) (i : Nat) (hi : r.length ≤ i) :
    peek (poke buf 0 r) i = peek buf i := by
  rw [peek_poke]
  have : ¬ (0 ≤ i ∧ i < 0 + r.length ∧ i < buf.length) := by omega
  rw [if_neg this]

theorem take_poke (r buf : List Byte) (h : r.length ≤ buf.length) :
    (poke buf 0 r).take r.length = r := by
  apply List.ext_getElem
  · simp [length_poke, h]
  · intro i h1 h2
    have hp := peek_poke r buf 0 i
    have hc : 0 ≤ i ∧ i < 0 + r.length ∧ i < buf.length := by omega
    rw [if_pos hc] at hp
    have h3 : i < (poke buf 0 r).length := by rw [length_poke]; omega
    simp only [peek, Nat.sub_zero, List.getD_eq_getElem?_getD, List.getElem?_eq_getElem h3,
      List.getElem?_eq_getElem h2, Option.getD_some] at hp
    simp [hp]

/-! ## Lemmas on the loop -/

theorem loop_record (f : Nat) (r rest buf : List Byte) (fl : Flags) (n : Nat)
    (hf : 0 < f) (hr : IsRecord r) (hb : 0 < buf.length) :
    loop f (r ++ rest) buf fl n =
      if (classify (poke buf 0 r) fl).2 = true then
        { result := (classify (poke buf 0 r) fl).1.result,
          flags := (classify (poke buf 0 r) fl).1, exit := .earlyExit,
          usbDevice := rest, descriptorBuffer := poke buf 0 r, records := n + 1 }
      else
        loop (f - 1) rest (poke buf 0 r) (classify (poke buf 0 r) fl).1 (n + 1) := by
  obtain ⟨g, rfl⟩ : ∃ g, f = g + 1 := ⟨f - 1, by omega⟩
  simp only [loop, read_descriptor_record r rest buf hr hb, if_true, Nat.add_sub_cancel]

theorem loop_nil (f : Nat) (buf : List Byte) (fl : Flags) (n : Nat) (hf : 0 < f) :
    loop f [] buf fl n =
      { result := fl.result, flags := fl, exit := .readFailed, usbDevice := [],
        descriptorBuffer := buf, records := n } := by
  obtain ⟨g, rfl⟩ : ∃ g, f = g + 1 := ⟨f - 1, by omega⟩
  simp [loop, read_descriptor_nil]

theorem read_descriptor_consumes (s buf : List Byte)
    (h : (read_descriptor s buf).ok = true) :
    (read_descriptor s buf).usbDevice.length + 2 ≤ s.length := by
  unfold read_descriptor at h ⊢
  simp only at h ⊢
  split_ifs at h ⊢ with h1 h2 h3
  simp only [fread, List.length_drop, List.length_take, sizeof_usb_descriptor,
    Nat.mul_one, ne_eq, Decidable.not_not] at h1 ⊢
  have : 2 ≤ s.length := by
    by_contra hc
    have hm : min 2 s.length < 2 := by omega
    have := Nat.div_eq_of_lt hm
    omega
  omega

theorem loop_exit_ne_outOfFuel :
    ∀ (f : Nat) (s buf : List Byte) (fl : Flags) (n : Nat), s.length < f →
      (loop f s buf fl n).exit ≠ .outOfFuel := by
  intro f
  induction f with
  | zero => intro s buf fl n h; omega
  | succ g ih =>
    intro s buf fl n h
    unfold loop
    simp only
    split_ifs with h1 h2
    · simp
    · exact ih _ _ _ _ (by have := read_descriptor_consumes s buf h1; omega)
    · simp

/-- The iteration budget `read_descriptors` gives its loop is never used up: the loop is
always left by a failed read or by the `break`. -/
theorem read_descriptors_exit_ne_outOfFuel (opened : Option (List Byte)) :
    (read_descriptors opened).exit ≠ .outOfFuel := by
  cases opened with
  | none => simp [read_descriptors]
  | some s => exact loop_exit_ne_outOfFuel _ s _ _ _ (Nat.lt_succ_self _)

/-! ## Lemmas on `classify` -/

theorem shiftRight_seven_ne_zero_iff (x : Nat) (hx : x < 256) :
    x >>> 7 ≠ 0 ↔ x.testBit 7 = true := by
  rw [Nat.shiftRight_eq_div_pow, Nat.testBit_to_div_mod]
  simp only [decide_eq_true_eq]
  omega

theorem field_lt (r : List Byte) (i : Nat) : field r i < 256 := (r.getD i 0).isLt

theorem classify_configuration (r buf : List Byte) (fl : Flags) (hr : IsConfiguration r)
    (hb : buf.length = 256) :
    classify (poke buf 0 r) fl = ({ fl with withinAdbInterface := false }, false) := by
  obtain ⟨⟨hlen, _⟩, hty⟩ := hr
  have h1 := peek_poke_record r buf 1 (by omega) (by omega)
  simp [classify, h1, hty]

theorem classify_interface (r buf : List Byte) (fl : Flags) (hr : IsInterface r)
    (hb : buf.length = 256) :
    classify (poke buf 0 r) fl =
      ({ fl with withinAdbInterface := decide (MatchesAdb r) }, false) := by
  obtain ⟨⟨_, _⟩, hty, hlen⟩ := hr
  have h1 := peek_poke_record r buf 1 (by omega) (by omega)
  have h5 := peek_poke_record r buf 5 (by omega) (by omega)
  have h6 := peek_poke_record r buf 6 (by omega) (by omega)
  have h7 := peek_poke_record r buf 7 (by omega) (by omega)
  by_cases hm : MatchesAdb r
  · have hm2 := hm
    obtain ⟨m5, m6, m7⟩ := hm2
    simp [classify, h1, h5, h6, h7, hty, hm, m5, m6, m7]
  · have hn : ¬ (field r 5 = 255 ∧ field r 6 = 66 ∧ field r 7 = 1) := hm
    simp only [classify, offsetof_bDescriptorType, h1, hty, CFG_DESCRIPTOR_TYPE,
      INTERFACE_DESCRIPTOR_TYPE, offsetof_bInterfaceClass, offsetof_bInterfaceSubClass,
      offsetof_bInterfaceProtocol, h5, h6, h7, ADB_INTERFACE_CLASS, ADB_INTERFACE_SUBCLASS,
      ADB_INTERFACE_PROTOCOL]
    simp [hn, hm]

theorem classify_endpoint_outside (r buf : List Byte) (fl : Flags)
    (hr : IsRecord r) (hty : field r 1 = 5) (hb : buf.length = 256)
    (hw : fl.withinAdbInterface = false) :
    classify (poke buf 0 r) fl = (fl, false) := by
  obtain ⟨hlen, _⟩ := hr
  have h1 := peek_poke_record r buf 1 (by omega) (by omega)
  simp [classify, h1, hty, hw]

theorem classify_endpoint_inside (r buf : List Byte) (fl : Flags) (hr : IsEndpoint r)
    (hb : buf.length = 256) (hw : fl.withinAdbInterface = true) :
    classify (poke buf 0 r) fl =
      (if IsBulk r then
        if DirIn r then
          ({ fl with gotBulkIn := true }, fl.gotBulkOut)
        else
          ({ fl with gotBulkOut := true }, fl.gotBulkIn)
      else (fl, fl.gotBulkIn && fl.gotBulkOut)) := by
  obtain ⟨⟨_, _⟩, hty, hlen⟩ := hr
  have h1 := peek_poke_record r buf 1 (by omega) (by omega)
  have h2 := peek_poke_record r buf 2 (by omega) (by omega)
  have h3 := peek_poke_record r buf 3 (by omega) (by omega)
  have hd := shiftRight_seven_ne_zero_iff (field r 2) (field_lt r 2)
  simp only [classify, offsetof_bDescriptorType, h1, hty, CFG_DESCRIPTOR_TYPE,
    INTERFACE_DESCRIPTOR_TYPE, ENDPOINT_DESCRIPTOR_TYPE, offsetof_bmAttributes,
    offsetof_bEndpointAddress, h2, h3, hw, IsBulk, DirIn, hd]
  by_cases hbk : field r 3 &&& 3 = 2 <;> by_cases hdi : (field r 2).testBit 7 = true <;>
    cases hi : fl.gotBulkIn <;> cases ho : fl.gotBulkOut <;> simp [hbk, hdi, hi, ho]

theorem classify_no_break (buf : List Byte) (fl : Flags)
    (h : ¬ (fl.gotBulkIn = true ∧ fl.gotBulkOut = true))
    (hb : (classify buf fl).2 = false) :
    ¬ ((classify buf fl).1.gotBulkIn = true ∧ (classify buf fl).1.gotBulkOut = true) := by
  unfold classify at hb ⊢
  simp only at hb ⊢
  split_ifs at hb ⊢ <;> simp_all

theorem read_descriptor_bad (bad buf : List Byte) (hbad : IsBadRecord bad)
    (hb : 0 < buf.length) : (read_descriptor bad buf).ok = false := by
  match bad, hbad with
  | [], h => simp [IsBadRecord] at h
  | [a], _ => rw [read_descriptor_single]
  | a :: b :: t, h =>
    have hf : field (a :: b :: t) 0 = a.val := rfl
    simp only [IsBadRecord, hf, List.length_cons] at h
    by_cases h1 : a.val < 2
    · rw [read_descriptor_short_length a b t buf hb h1]
    · exact (read_descriptor_short_body a b t buf hb (by omega) (by omega)).1

theorem loop_read_failed (f : Nat) (s buf : List Byte) (fl : Flags) (n : Nat) (hf : 0 < f)
    (h : (read_descriptor s buf).ok = false) :
    loop f s buf fl n =
      { result := fl.result, flags := fl, exit := .readFailed,
        usbDevice := (read_descriptor s buf).usbDevice,
        descriptorBuffer := (read_descriptor s buf).buffer, records := n } := by
  obtain ⟨g, rfl⟩ : ∃ g, f = g + 1 := ⟨f - 1, by omega⟩
  simp [loop, h]

theorem result_false_of_not_both (fl : Flags)
    (h : ¬ (fl.gotBulkIn = true ∧ fl.gotBulkOut = true)) : fl.result = false := by
  cases hi : fl.gotBulkIn <;> cases ho : fl.gotBulkOut <;> simp_all [Flags.result]

theorem loop_records_then_bad (bad : List Byte) (hbad : IsBadRecord bad)
    (recs : List (List Byte)) :
    ∀ (f : Nat) (buf : List Byte) (fl : Flags) (n : Nat), buf.length = 256 →
      (recs.flatten ++ bad).length < f → (∀ r ∈ recs, IsRecord r) →
      ¬ (fl.gotBulkIn = true ∧ fl.gotBulkOut = true) →
      (loop f (recs.flatten ++ bad) buf fl n).exit = .earlyExit
        ∨ ((loop f (recs.flatten ++ bad) buf fl n).exit = .readFailed
          ∧ (loop f (recs.flatten ++ bad) buf fl n).records = n + recs.length
          ∧ (loop f (recs.flatten ++ bad) buf fl n).result = false) := by
  induction recs with
  | nil =>
    intro f buf fl n hb hf _ hfl
    right
    simp only [List.flatten_nil, List.nil_append]
    rw [loop_read_failed f bad buf fl n (by omega)
      (read_descriptor_bad bad buf hbad (by omega))]
    exact ⟨rfl, rfl, result_false_of_not_both fl hfl⟩
  | cons r rs ih =>
    intro f buf fl n hb hf hrecs hfl
    have hr : IsRecord r := hrecs r (List.mem_cons_self _ _)
    have hr2 := hr.two_le
    simp only [List.flatten_cons, List.append_assoc, List.length_append] at hf ⊢
    rw [loop_record f r _ buf fl n (by omega) hr (by omega)]
    by_cases hbrk : (classify (poke buf 0 r) fl).2 = true
    · left; rw [if_pos hbrk]
    · rw [if_neg hbrk]
      have hbrk2 : (classify (poke buf 0 r) fl).2 = false := by simpa using hbrk
      have hinv := classify_no_break (poke buf 0 r) fl hfl hbrk2
      have := ih (f - 1) (poke buf 0 r) (classify (poke buf 0 r) fl).1 (n + 1)
        (by rw [length_poke, hb]) (by simp only [List.length_append]; omega)
        (fun x hx => hrecs x (List.mem_cons_of_mem _ hx)) hinv
      have e : n + 1 + rs.length = n + (rs.length + 1) := by omega
      simpa only [List.length_cons, e] using this

theorem peek_foldl_poke (i : Nat) (recs : List (List Byte)) :
    ∀ (buf : List Byte), i < buf.length →
      peek (recs.foldl (fun b r => poke b 0 r) buf) i =
        match recs.reverse.find? (fun p => decide (i < p.length)) with
        | some p => p.getD i 0
        | none => peek buf i := by
  induction recs with
  | nil => intro buf _; rfl
  | cons r rs ih =>
    intro buf hi
    rw [List.foldl_cons, ih (poke buf 0 r) (by rw [length_poke]; exact hi),
      List.reverse_cons, List.find?_append]
    cases hfind : rs.reverse.find? (fun p => decide (i < p.length)) with
    | some p => rfl
    | none =>
      rw [peek_poke]
      by_cases hlt : i < r.length
      · have hc : 0 ≤ i ∧ i < 0 + r.length ∧ i < buf.length := by omega
        simp [hlt, hc]
      · have hc : ¬ (0 ≤ i ∧ i < 0 + r.length ∧ i < buf.length) := by omega
        simp [hlt, hc]

theorem loop_buffer_of_all_read (recs : List (List Byte)) :
    ∀ (f : Nat) (buf : List Byte) (fl : Flags) (n : Nat), buf.length = 256 →
      recs.flatten.length < f → (∀ r ∈ recs, IsRecord r) →
      (loop f recs.flatten buf fl n).records = n + recs.length →
      (loop f recs.flatten buf fl n).descriptorBuffer
        = recs.foldl (fun b r => poke b 0 r) buf := by
  induction recs with
  | nil =>
    intro f buf fl n _ hf _ _
    rw [List.flatten_nil, loop_nil f buf fl n (by omega)]; rfl
  | cons r rs ih =>
    intro f buf fl n hb hf hrecs hall
    have hr : IsRecord r := hrecs r (List.mem_cons_self _ _)
    have hr2 := hr.two_le
    simp only [List.flatten_cons, List.length_append, List.length_cons] at hf hall ⊢
    rw [loop_record f r _ buf fl n (by omega) hr (by omega)] at hall ⊢
    by_cases hbrk : (classify (poke buf 0 r) fl).2 = true
    · rw [if_pos hbrk] at hall ⊢
      have hz : rs.length = 0 := by simp only at hall; omega
      have hnil : rs = [] := List.length_eq_zero.mp hz
      subst hnil
      rfl
    · rw [if_neg hbrk] at hall ⊢
      exact ih (f - 1) (poke buf 0 r) _ (n + 1) (by rw [length_poke, hb]) (by omega)
        (fun x hx => hrecs x (List.mem_cons_of_mem _ hx)) (by rw [hall]; omega)

theorem peek_replicate_zero (k i : Nat) : peek (List.replicate k (0 : Byte)) i = 0 := by
  unfold peek
  rw [List.getD_eq_getElem?_getD]
  by_cases h : i < k
  · simp [List.getElem?_replicate, h]
  · simp [List.getElem?_replicate, h]

theorem loop_endpoints_outside (eps : List (List Byte)) :
    ∀ (f : Nat) (buf : List Byte) (fl : Flags) (n : Nat), buf.length = 256 →
      eps.flatten.length < f → (∀ e ∈ eps, IsRecord e ∧ field e 1 = 5) →
      fl.withinAdbInterface = false →
      (loop f eps.flatten buf fl n).result = false
        ∧ (loop f eps.flatten buf fl n).exit = .readFailed
        ∧ (loop f eps.flatten buf fl n).records = n + eps.length
        ∧ (loop f eps.flatten buf fl n).flags = fl := by
  induction eps with
  | nil =>
    intro f buf fl n _ hf _ hw
    rw [List.flatten_nil, loop_nil f buf fl n (by omega)]
    exact ⟨by simp [Flags.result, hw], rfl, rfl, rfl⟩
  | cons e es ih =>
    intro f buf fl n hb hf heps hw
    obtain ⟨he, hty⟩ := heps e (List.mem_cons_self _ _)
    have he2 := he.two_le
    simp only [List.flatten_cons, List.length_append] at hf ⊢
    rw [loop_record f e _ buf fl n (by omega) he (by omega),
      classify_endpoint_outside e buf fl he hty hb hw]
    simp only [Bool.false_eq_true, if_false]
    have := ih (f - 1) (poke buf 0 e) fl (n + 1) (by rw [length_poke, hb]) (by omega)
      (fun x hx => heps x (List.mem_cons_of_mem _ hx)) hw
    have e1 : n + 1 + es.length = n + (es.length + 1) := by omega
    simpa only [List.length_cons, e1] using this

theorem loop_endpoints_one_direction (eps : List (List Byte)) :
    ∀ (f : Nat) (buf : List Byte) (fl : Flags) (n : Nat), buf.length = 256 →
      eps.flatten.length < f → (∀ e ∈ eps, IsEndpoint e) →
      fl.withinAdbInterface = true →
      ((∀ e ∈ eps, DirIn e) ∧ fl.gotBulkOut = false
        ∨ (∀ e ∈ eps, ¬ DirIn e) ∧ fl.gotBulkIn = false
        ∨ (∀ e ∈ eps, ¬ IsBulk e) ∧ ¬ (fl.gotBulkIn = true ∧ fl.gotBulkOut = true)) →
      (loop f eps.flatten buf fl n).result = false
        ∧ (loop f eps.flatten buf fl n).exit = .readFailed
        ∧ (loop f eps.flatten buf fl n).records = n + eps.length := by
  induction eps with
  | nil =>
    intro f buf fl n _ hf _ _ hdir
    rw [List.flatten_nil, loop_nil f buf fl n (by omega)]
    refine ⟨?_, rfl, rfl⟩
    apply result_false_of_not_both
    rcases hdir with ⟨_, h⟩ | ⟨_, h⟩ | ⟨_, h⟩
    · simp [h]
    · simp [h]
    · exact h
  | cons e es ih =>
    intro f buf fl n hb hf heps hw hdir
    have he := heps e (List.mem_cons_self _ _)
    have he2 := he.1.two_le
    simp only [List.flatten_cons, List.length_append] at hf ⊢
    rw [loop_record f e _ buf fl n (by omega) he.1 (by omega),
      classify_endpoint_inside e buf fl he hb hw]
    have e1 : n + 1 + es.length = n + (es.length + 1) := by omega
    have hb2 : (poke buf 0 e).length = 256 := by rw [length_poke, hb]
    have hes : ∀ x ∈ es, IsEndpoint x := fun x hx => heps x (List.mem_cons_of_mem _ hx)
    rcases hdir with ⟨hd, ho⟩ | ⟨hd, hi⟩ | ⟨hd, hn⟩
    · have hde := hd e (List.mem_cons_self _ _)
      have hdes : ∀ x ∈ es, DirIn x := fun x hx => hd x (List.mem_cons_of_mem _ hx)
      by_cases hbk : IsBulk e
      · simp only [hbk, hde, if_true, ho, Bool.false_eq_true, if_false]
        have := ih (f - 1) (poke buf 0 e) { fl with gotBulkIn := true } (n + 1) hb2
          (by omega) hes hw (Or.inl ⟨hdes, ho⟩)
        simpa only [List.length_cons, e1, ho] using this
      · simp only [hbk, if_false, ho, Bool.and_false, Bool.false_eq_true]
        have := ih (f - 1) (poke buf 0 e) fl (n + 1) hb2 (by omega) hes hw
          (Or.inl ⟨hdes, ho⟩)
        simpa only [List.length_cons, e1] using this
    · have hde := hd e (List.mem_cons_self _ _)
      have hdes : ∀ x ∈ es, ¬ DirIn x := fun x hx => hd x (List.mem_cons_of_mem _ hx)
      by_cases hbk : IsBulk e
      · simp only [hbk, hde, if_true, if_false, hi, Bool.false_eq_true]
        have := ih (f - 1) (poke buf 0 e) { fl with gotBulkOut := true } (n + 1) hb2
          (by omega) hes hw (Or.inr (Or.inl ⟨hdes, hi⟩))
        simpa only [List.length_cons, e1, hi] using this
      · simp only [hbk, if_false, hi, Bool.false_and, Bool.false_eq_true]
        have := ih (f - 1) (poke buf 0 e) fl (n + 1) hb2 (by omega) hes hw
          (Or.inr (Or.inl ⟨hdes, hi⟩))
        simpa only [List.length_cons, e1] using this
    · have hbk := hd e (List.mem_cons_self _ _)
      have hdes : ∀ x ∈ es, ¬ IsBulk x := fun x hx => hd x (List.mem_cons_of_mem _ hx)
      have hboth : (fl.gotBulkIn && fl.gotBulkOut) = false := by
        cases h1 : fl.gotBulkIn <;> cases h2 : fl.gotBulkOut <;> simp_all
      simp only [hbk, if_false, hboth, Bool.false_eq_true]
      have := ih (f - 1) (poke buf 0 e) fl (n + 1) hb2 (by omega) hes hw
        (Or.inr (Or.inr ⟨hdes, hn⟩))
      simpa only [List.length_cons, e1] using this

theorem loop_configuration_interface (f : Nat) (cfg itf rest buf : List Byte) (n : Nat)
    (hb : buf.length = 256) (hf : (cfg ++ (itf ++ rest)).length < f)
    (hcfg : IsConfiguration cfg) (hitf : IsInterface itf) :
    loop f (cfg ++ (itf ++ rest)) buf Flags.init n =
      loop (f - 1 - 1) rest (poke (poke buf 0 cfg) 0 itf)
        { withinAdbInterface := decide (MatchesAdb itf), gotBulkIn := false,
          gotBulkOut := false } (n + 1 + 1) := by
  have l1 := hcfg.1.two_le
  have l2 := hitf.1.two_le
  simp only [List.length_append] at hf
  have b1 : (poke buf 0 cfg).length = 256 := by rw [length_poke, hb]
  rw [loop_record _ cfg _ _ _ _ (by omega) hcfg.1 (by omega),
    classify_configuration cfg _ _ hcfg hb]
  simp only [Bool.false_eq_true, if_false]
  rw [loop_record _ itf _ _ _ _ (by omega) hitf.1 (by omega),
    classify_interface itf _ _ hitf b1]
  simp only [Bool.false_eq_true, if_false, Flags.init]

theorem loop_not_early_false :
    ∀ (f : Nat) (s buf : List Byte) (fl : Flags) (n : Nat),
      ¬ (fl.gotBulkIn = true ∧ fl.gotBulkOut = true) →
      (loop f s buf fl n).exit ≠ .earlyExit → (loop f s buf fl n).result = false := by
  intro f
  induction f with
  | zero =>
    intro s buf fl n hfl _
    exact result_false_of_not_both fl hfl
  | succ g ih =>
    intro s buf fl n hfl hexit
    unfold loop at hexit ⊢
    simp only at hexit ⊢
    split_ifs at hexit ⊢ with h1 h2
    · exact absurd rfl hexit
    · have h3 : (classify (read_descriptor s buf).buffer fl).2 = false := by simpa using h2
      exact ih _ _ _ _ (classify_no_break _ fl hfl h3) hexit
    · exact result_false_of_not_both fl hfl

theorem read_descriptors_not_early_false (opened : Option (List Byte))
    (hexit : (read_descriptors opened).exit ≠ .earlyExit) :
    (read_descriptors opened).result = false := by
  cases opened with
  | none => rfl
  | some s =>
    exact loop_not_early_false _ s _ Flags.init 0 (by simp [Flags.init]) hexit

theorem loop_records_le :
    ∀ (f : Nat) (s buf : List Byte) (fl : Flags) (n : Nat),
      (loop f s buf fl n).records ≤ n + s.length / 2 := by
  intro f
  induction f with
  | zero => intro s buf fl n; simp [loop]
  | succ g ih =>
    intro s buf fl n
    unfold loop
    simp only
    split_ifs with h1 h2
    · have := read_descriptor_consumes s buf h1
      simp only
      omega
    · have := read_descriptor_consumes s buf h1
      have := ih (read_descriptor s buf).usbDevice (read_descriptor s buf).buffer
        (classify (read_descriptor s buf).buffer fl).1 (n + 1)
      omega
    · simp only
      omega

theorem loop_fuel_irrelevant :
    ∀ (f g : Nat) (s buf : List Byte) (fl : Flags) (n : Nat),
      s.length / 2 < f → s.length / 2 < g → loop f s buf fl n = loop g s buf fl n := by
  intro f
  induction f with
  | zero => intro g s buf fl n h; omega
  | succ f ih =>
    intro g s buf fl n hf hg
    obtain ⟨g, rfl⟩ : ∃ k, g = k + 1 := ⟨g - 1, by omega⟩
    unfold loop
    simp only
    split_ifs with h1 h2
    · rfl
    · have := read_descriptor_consumes s buf h1
      exact ih g _ _ _ _ (by omega) (by omega)
    · rfl

theorem classify_ignored (r buf : List Byte) (fl : Flags) (hr : IsRecord r)
    (h2 : field r 1 ≠ 2) (h4 : field r 1 ≠ 4) (h5 : field r 1 ≠ 5) (hb : buf.length = 256) :
    classify (poke buf 0 r) fl = (fl, false) := by
  have h1 := peek_poke_record r buf 1 (by have := hr.two_le; omega) (by omega)
  simp [classify, h1, h2, h4, h5]

theorem loop_step (f : Nat) (r rest buf : List Byte) (fl : Flags) (n : Nat)
    (hf : (r ++ rest).length < f) (hr : IsRecord r) (hb : buf.length = 256)
    (hnb : (classify (poke buf 0 r) fl).2 = false) :
    ∃ (g : Nat) (buf2 : List Byte), buf2.length = 256 ∧ rest.length < g
      ∧ loop f (r ++ rest) buf fl n = loop g rest buf2 (classify (poke buf 0 r) fl).1 (n + 1) := by
  have hr2 := hr.two_le
  simp only [List.length_append] at hf
  refine ⟨f - 1, poke buf 0 r, by rw [length_poke, hb], by omega, ?_⟩
  rw [loop_record f r rest buf fl n (by omega) hr (by omega), hnb]
  simp

theorem loop_devices (ds : List (List Byte)) :
    ∀ (f : Nat) (rest buf : List Byte) (fl : Flags) (n : Nat), buf.length = 256 →
      (ds.flatten ++ rest).length < f → (∀ d ∈ ds, IsRecord d ∧ field d 1 = 1) →
      ∃ (g : Nat) (buf2 : List Byte), buf2.length = 256 ∧ rest.length < g
        ∧ loop f (ds.flatten ++ rest) buf fl n = loop g rest buf2 fl (n + ds.length) := by
  induction ds with
  | nil =>
    intro f rest buf fl n hb hf _
    exact ⟨f, buf, hb, by simpa using hf, by simp⟩
  | cons d ds ih =>
    intro f rest buf fl n hb hf hds
    obtain ⟨hd, hty⟩ := hds d (List.mem_cons_self _ _)
    have hc := classify_ignored d buf fl hd (by omega) (by omega) (by omega) hb
    simp only [List.flatten_cons, List.append_assoc] at hf ⊢
    obtain ⟨g1, b1, hb1, hg1, e1⟩ := loop_step f d (ds.flatten ++ rest) buf fl n hf hd hb
      (by rw [hc])
    rw [hc] at e1
    obtain ⟨g2, b2, hb2, hg2, e2⟩ := ih g1 rest b1 fl (n + 1) hb1 hg1
      (fun x hx => hds x (List.mem_cons_of_mem _ hx))
    refine ⟨g2, b2, hb2, hg2, ?_⟩
    rw [e1, e2, List.length_cons]
    congr 1
    omega

theorem loop_positive_with_devices (f : Nat) (cfg itf epIn epOut buf : List Byte)
    (d0 d1 d2 d3 : List (List Byte)) (suffix : List Byte) (n : Nat)
    (hb : buf.length = 256)
    (hf : (d0.flatten ++ (cfg ++ (d1.flatten ++ (itf ++ (d2.flatten ++ (epIn
      ++ (d3.flatten ++ (epOut ++ suffix)))))))).length < f)
    (hcfg : IsConfiguration cfg) (hitf : IsInterface itf) (hadb : MatchesAdb itf)
    (hin : IsEndpoint epIn) (hinBulk : IsBulk epIn) (hinDir : DirIn epIn)
    (hout : IsEndpoint epOut) (houtBulk : IsBulk epOut) (houtDir : ¬ DirIn epOut)
    (h0 : ∀ d ∈ d0, IsRecord d ∧ field d 1 = 1) (h1 : ∀ d ∈ d1, IsRecord d ∧ field d 1 = 1)
    (h2 : ∀ d ∈ d2, IsRecord d ∧ field d 1 = 1) (h3 : ∀ d ∈ d3, IsRecord d ∧ field d 1 = 1) :
    (loop f (d0.flatten ++ (cfg ++ (d1.flatten ++ (itf ++ (d2.flatten ++ (epIn
        ++ (d3.flatten ++ (epOut ++ suffix)))))))) buf Flags.init n).result = true
      ∧ (loop f (d0.flatten ++ (cfg ++ (d1.flatten ++ (itf ++ (d2.flatten ++ (epIn
        ++ (d3.flatten ++ (epOut ++ suffix)))))))) buf Flags.init n).exit = .earlyExit
      ∧ (loop f (d0.flatten ++ (cfg ++ (d1.flatten ++ (itf ++ (d2.flatten ++ (epIn
        ++ (d3.flatten ++ (epOut ++ suffix)))))))) buf Flags.init n).usbDevice = suffix
      ∧ (loop f (d0.flatten ++ (cfg ++ (d1.flatten ++ (itf ++ (d2.flatten ++ (epIn
        ++ (d3.flatten ++ (epOut ++ suffix)))))))) buf Flags.init n).records
          = n + d0.length + 1 + d1.length + 1 + d2.length + 1 + d3.length + 1 := by
  have hdec : decide (MatchesAdb itf) = true := by simp [hadb]
  obtain ⟨g0, b0, hb0, hg0, e0⟩ := loop_devices d0 f _ buf Flags.init n hb hf h0
  have c1 : classify (poke b0 0 cfg) Flags.init = (Flags.init, false) :=
    classify_configuration cfg b0 Flags.init hcfg hb0
  obtain ⟨g1, b1, hb1, hg1, e1⟩ := loop_step g0 cfg _ b0 Flags.init (n + d0.length) hg0
    hcfg.1 hb0 (by rw [c1])
  rw [c1] at e1
  dsimp only at e1
  obtain ⟨g2, b2, hb2, hg2, e2⟩ := loop_devices d1 g1 _ b1 Flags.init (n + d0.length + 1)
    hb1 hg1 h1
  have c3 : classify (poke b2 0 itf) Flags.init
      = ({ withinAdbInterface := true, gotBulkIn := false, gotBulkOut := false }, false) := by
    rw [classify_interface itf b2 Flags.init hitf hb2, hdec]; rfl
  obtain ⟨g3, b3, hb3, hg3, e3⟩ := loop_step g2 itf _ b2 Flags.init
    (n + d0.length + 1 + d1.length) hg2 hitf.1 hb2 (by rw [c3])
  rw [c3] at e3
  dsimp only at e3
  obtain ⟨g4, b4, hb4, hg4, e4⟩ := loop_devices d2 g3 _ b3
    { withinAdbInterface := true, gotBulkIn := false, gotBulkOut := false }
    (n + d0.length + 1 + d1.length + 1) hb3 hg3 h2
  have c5 : classify (poke b4 0 epIn)
      { withinAdbInterface := true, gotBulkIn := false, gotBulkOut := false }
      = ({ withinAdbInterface := true, gotBulkIn := true, gotBulkOut := false }, false) := by
    rw [classify_endpoint_inside epIn b4 _ hin hb4 rfl]
    simp only [hinBulk, hinDir, if_true]
  obtain ⟨g5, b5, hb5, hg5, e5⟩ := loop_step g4 epIn _ b4
    { withinAdbInterface := true, gotBulkIn := false, gotBulkOut := false }
    (n + d0.length + 1 + d1.length + 1 + d2.length) hg4 hin.1 hb4 (by rw [c5])
  rw [c5] at e5
  dsimp only at e5
  obtain ⟨g6, b6, hb6, hg6, e6⟩ := loop_devices d3 g5 _ b5
    { withinAdbInterface := true, gotBulkIn := true, gotBulkOut := false }
    (n + d0.length + 1 + d1.length + 1 + d2.length + 1) hb5 hg5 h3
  have c7 : classify (poke b6 0 epOut)
      { withinAdbInterface := true, gotBulkIn := true, gotBulkOut := false }
      = ({ withinAdbInterface := true, gotBulkIn := true, gotBulkOut := true }, true) := by
    rw [classify_endpoint_inside epOut b6 _ hout hb6 rfl]
    simp only [houtBulk, houtDir, if_true, if_false]
  have l7 := hout.1.two_le
  simp only [List.length_append] at hg6
  rw [e0, e1, e2, e3, e4, e5, e6,
    loop_record g6 epOut suffix b6 _ _ (by omega) hout.1 (by omega), c7]
  simp [Flags.result]

theorem insideAdb_snoc_interface (done : List (List Byte)) (r : List Byte)
    (hty : field r 1 = 4) (hm : MatchesAdb r) : InsideAdb (done ++ [r]) :=
  ⟨done, r, [], rfl, hty, hm, fun _ h => absurd h (List.not_mem_nil _)⟩

theorem insideAdb_snoc_other (done : List (List Byte)) (r : List Byte)
    (h : InsideAdb done) (h4 : field r 1 ≠ 4) (h2 : field r 1 ≠ 2) :
    InsideAdb (done ++ [r]) := by
  obtain ⟨pre, itf, mid, rfl, hty, hm, hmid⟩ := h
  refine ⟨pre, itf, mid ++ [r], by simp, hty, hm, ?_⟩
  intro m hmem
  rcases List.mem_append.mp hmem with h | h
  · exact hmid m h
  · rw [List.mem_singleton.mp h]; exact ⟨h4, h2⟩

theorem seenBulk_snoc (dirIn : Bool) (done : List (List Byte)) (r : List Byte)
    (h : SeenBulk dirIn done) : SeenBulk dirIn (done ++ [r]) := by
  obtain ⟨pre, e, post, rfl, hin, hty, hbk, hd⟩ := h
  exact ⟨pre, e, post ++ [r], by simp, hin, hty, hbk, hd⟩

theorem seenBulk_new (dirIn : Bool) (done : List (List Byte)) (r : List Byte)
    (hin : InsideAdb done) (hty : field r 1 = 5) (hbk : IsBulk r)
    (hd : DirIn r ↔ dirIn = true) : SeenBulk dirIn (done ++ [r]) :=
  ⟨done, r, [], rfl, hin, hty, hbk, hd⟩

theorem classify_break (r buf : List Byte) (fl : Flags) (hr : IsRecord r)
    (h8 : field r 1 = 4 → 8 ≤ r.length) (h4 : field r 1 = 5 → 4 ≤ r.length)
    (hb : buf.length = 256) (hfl : ¬ (fl.gotBulkIn = true ∧ fl.gotBulkOut = true))
    (hbrk : (classify (poke buf 0 r) fl).2 = true) :
    field r 1 = 5 ∧ fl.withinAdbInterface = true ∧ IsBulk r
      ∧ ((DirIn r ∧ fl.gotBulkOut = true) ∨ (¬ DirIn r ∧ fl.gotBulkIn = true)) := by
  by_cases t2 : field r 1 = 2
  · rw [classify_configuration r buf fl ⟨hr, t2⟩ hb] at hbrk
    exact Bool.noConfusion hbrk
  by_cases t4 : field r 1 = 4
  · rw [classify_interface r buf fl ⟨hr, t4, h8 t4⟩ hb] at hbrk
    exact Bool.noConfusion hbrk
  by_cases t5 : field r 1 = 5
  · cases hw : fl.withinAdbInterface with
    | false =>
      rw [classify_endpoint_outside r buf fl hr t5 hb hw] at hbrk
      exact Bool.noConfusion hbrk
    | true =>
      rw [classify_endpoint_inside r buf fl ⟨hr, t5, h4 t5⟩ hb hw] at hbrk
      by_cases hbk : IsBulk r
      · by_cases hd : DirIn r
        · simp only [hbk, hd, if_true] at hbrk
          exact ⟨t5, rfl, hbk, Or.inl ⟨hd, hbrk⟩⟩
        · simp only [hbk, hd, if_true, if_false] at hbrk
          exact ⟨t5, rfl, hbk, Or.inr ⟨hd, hbrk⟩⟩
      · simp only [hbk, if_false] at hbrk
        exfalso
        apply hfl
        cases hi : fl.gotBulkIn <;> cases ho : fl.gotBulkOut <;> simp_all
  · rw [classify_ignored r buf fl hr t2 t4 t5 hb] at hbrk
    exact Bool.noConfusion hbrk

theorem flagsJustified_step (done : List (List Byte)) (r buf : List Byte) (fl : Flags)
    (hr : IsRecord r) (h8 : field r 1 = 4 → 8 ≤ r.length) (h4 : field r 1 = 5 → 4 ≤ r.length)
    (hb : buf.length = 256) (hj : FlagsJustified done fl)
    (hnb : (classify (poke buf 0 r) fl).2 = false) :
    FlagsJustified (done ++ [r]) (classify (poke buf 0 r) fl).1 := by
  obtain ⟨jw, ji, jo, jn⟩ := hj
  have hno := classify_no_break (poke buf 0 r) fl jn hnb
  by_cases t2 : field r 1 = 2
  · rw [classify_configuration r buf fl ⟨hr, t2⟩ hb] at hno ⊢
    exact ⟨fun h => Bool.noConfusion h, fun h => seenBulk_snoc _ _ _ (ji h),
      fun h => seenBulk_snoc _ _ _ (jo h), jn⟩
  by_cases t4 : field r 1 = 4
  · rw [classify_interface r buf fl ⟨hr, t4, h8 t4⟩ hb] at hno ⊢
    exact ⟨fun h => insideAdb_snoc_interface done r t4 (of_decide_eq_true h),
      fun h => seenBulk_snoc _ _ _ (ji h), fun h => seenBulk_snoc _ _ _ (jo h), jn⟩
  by_cases t5 : field r 1 = 5
  · cases hw : fl.withinAdbInterface with
    | false =>
      rw [classify_endpoint_outside r buf fl hr t5 hb hw]
      exact ⟨fun h => by rw [hw] at h; exact Bool.noConfusion h,
        fun h => seenBulk_snoc _ _ _ (ji h), fun h => seenBulk_snoc _ _ _ (jo h), jn⟩
    | true =>
      have hin : InsideAdb done := jw hw
      have hin2 : InsideAdb (done ++ [r]) :=
        insideAdb_snoc_other done r hin (by omega) (by omega)
      rw [classify_endpoint_inside r buf fl ⟨hr, t5, h4 t5⟩ hb hw] at hno ⊢
      by_cases hbk : IsBulk r
      · by_cases hd : DirIn r
        · simp only [hbk, hd, if_true] at hno ⊢
          exact ⟨fun _ => hin2,
            fun _ => seenBulk_new true done r hin t5 hbk ⟨fun _ => rfl, fun _ => hd⟩,
            fun h => seenBulk_snoc _ _ _ (jo h), by simpa using hno⟩
        · simp only [hbk, hd, if_true, if_false] at hno ⊢
          exact ⟨fun _ => hin2, fun h => seenBulk_snoc _ _ _ (ji h),
            fun _ => seenBulk_new false done r hin t5 hbk
              ⟨fun h => absurd h hd, fun h => Bool.noConfusion h⟩, by simpa using hno⟩
      · simp only [hbk, if_false] at hno ⊢
        exact ⟨fun _ => hin2, fun h => seenBulk_snoc _ _ _ (ji h),
          fun h => seenBulk_snoc _ _ _ (jo h), jn⟩
  · rw [classify_ignored r buf fl hr t2 t4 t5 hb]
    exact ⟨fun h => insideAdb_snoc_other done r (jw h) t4 t2,
      fun h => seenBulk_snoc _ _ _ (ji h), fun h => seenBulk_snoc _ _ _ (jo h), jn⟩

theorem loop_records_ge :
    ∀ (f : Nat) (s buf : List Byte) (fl : Flags) (n : Nat),
      n ≤ (loop f s buf fl n).records := by
  intro f
  induction f with
  | zero => intro s buf fl n; simp [loop]
  | succ g ih =>
    intro s buf fl n
    unfold loop
    simp only
    split_ifs with h1 h2
    · simp only; omega
    · have := ih (read_descriptor s buf).usbDevice (read_descriptor s buf).buffer
        (classify (read_descriptor s buf).buffer fl).1 (n + 1)
      omega
    · simp only; omega

theorem loop_records_eq_self (f : Nat) (s buf : List Byte) (fl : Flags) (n : Nat)
    (h : (loop f s buf fl n).records = n) : (loop f s buf fl n).result = fl.result := by
  cases f with
  | zero => simp [loop]
  | succ g =>
    unfold loop at h ⊢
    simp only at h ⊢
    split_ifs at h ⊢ with h1 h2
    · simp only at h; omega
    · have := loop_records_ge g (read_descriptor s buf).usbDevice (read_descriptor s buf).buffer
        (classify (read_descriptor s buf).buffer fl).1 (n + 1)
      omega
    · rfl

theorem loop_sound (rest : List Byte) (recs : List (List Byte)) :
    ∀ (f : Nat) (buf : List Byte) (fl : Flags) (n : Nat) (done : List (List Byte)),
      buf.length = 256 → (recs.flatten ++ rest).length < f →
      (∀ r ∈ recs, IsRecord r ∧ (field r 1 = 4 → 8 ≤ r.length)
        ∧ (field r 1 = 5 → 4 ≤ r.length)) →
      FlagsJustified done fl →
      (loop f (recs.flatten ++ rest) buf fl n).records = n + recs.length →
      (loop f (recs.flatten ++ rest) buf fl n).result = true →
      (∃ (before : List (List Byte)) (last : List Byte),
          done ++ recs = before ++ [last] ∧ field last 1 = 5 ∧ IsBulk last
            ∧ InsideAdb before)
        ∧ SeenBulk true (done ++ recs) ∧ SeenBulk false (done ++ recs) := by
  induction recs with
  | nil =>
    intro f buf fl n done _ _ _ hj hall hres
    exfalso
    simp only [List.flatten_nil, List.nil_append, List.length_nil, Nat.add_zero] at hall hres
    rw [loop_records_eq_self f rest buf fl n hall, result_false_of_not_both fl hj.2.2.2] at hres
    exact Bool.noConfusion hres
  | cons r rs ih =>
    intro f buf fl n done hb hf hrecs hj hall hres
    obtain ⟨hr, h8, h4⟩ := hrecs r (List.mem_cons_self _ _)
    have hr2 := hr.two_le
    simp only [List.flatten_cons, List.append_assoc, List.length_append,
      List.length_cons] at hf hall hres
    rw [loop_record f r _ buf fl n (by omega) hr (by omega)] at hall hres
    by_cases hbrk : (classify (poke buf 0 r) fl).2 = true
    · rw [if_pos hbrk] at hall hres
      have hz : rs.length = 0 := by simp only at hall; omega
      have hnil : rs = [] := List.length_eq_zero.mp hz
      subst hnil
      obtain ⟨t5, hw, hbk, hdir⟩ := classify_break r buf fl hr h8 h4 hb hj.2.2.2 hbrk
      have hin : InsideAdb done := hj.1 hw
      refine ⟨⟨done, r, rfl, t5, hbk, hin⟩, ?_, ?_⟩
      · rcases hdir with ⟨hd, ho⟩ | ⟨hd, hi⟩
        · exact seenBulk_new true done r hin t5 hbk ⟨fun _ => rfl, fun _ => hd⟩
        · exact seenBulk_snoc _ _ _ (hj.2.1 hi)
      · rcases hdir with ⟨hd, ho⟩ | ⟨hd, hi⟩
        · exact seenBulk_snoc _ _ _ (hj.2.2.1 ho)
        · exact seenBulk_new false done r hin t5 hbk
            ⟨fun h => absurd h hd, fun h => Bool.noConfusion h⟩
    · rw [if_neg hbrk] at hall hres
      have hnb : (classify (poke buf 0 r) fl).2 = false := by simpa using hbrk
      have hj2 := flagsJustified_step done r buf fl hr h8 h4 hb hj hnb
      have := ih (f - 1) (poke buf 0 r) (classify (poke buf 0 r) fl).1 (n + 1) (done ++ [r])
        (by rw [length_poke, hb]) (by simp only [List.length_append]; omega)
        (fun x hx => hrecs x (List.mem_cons_of_mem _ hx)) hj2 (by rw [hall]; omega) hres
      simpa only [List.append_assoc, List.singleton_append] using this

theorem read_descriptor_ok_split (s buf : List Byte) (hb : 0 < buf.length)
    (h : (read_descriptor s buf).ok = true) :
    ∃ r : List Byte, IsRecord r ∧ s = r ++ (read_descriptor s buf).usbDevice
      ∧ (read_descriptor s buf).buffer = poke buf 0 r := by
  match s with
  | [] => rw [read_descriptor_nil] at h; exact Bool.noConfusion h
  | [a] => rw [read_descriptor_single] at h; exact Bool.noConfusion h
  | a :: b :: t =>
    by_cases h1 : a.val < 2
    · rw [read_descriptor_short_length a b t buf hb h1] at h; exact Bool.noConfusion h
    · by_cases h2 : t.length < a.val - 2
      · rw [(read_descriptor_short_body a b t buf hb (by omega) h2).1] at h
        exact Bool.noConfusion h
      · rw [read_descriptor_whole a b t buf hb (by omega) (by omega)]
        refine ⟨a :: b :: t.take (a.val - 2), ⟨?_, ?_⟩, ?_, rfl⟩
        · simp only [List.length_cons, List.length_take]; omega
        · show a.val = (a :: b :: t.take (a.val - 2)).length
          simp only [List.length_cons, List.length_take]; omega
        · simp only [List.cons_append, List.take_append_drop]

theorem loop_early_exit_split :
    ∀ (f : Nat) (s buf : List Byte) (fl : Flags) (n : Nat), 0 < buf.length →
      (loop f s buf fl n).exit = .earlyExit →
      ∃ recs : List (List Byte), (∀ r ∈ recs, IsRecord r)
        ∧ s = recs.flatten ++ (loop f s buf fl n).usbDevice
        ∧ (loop f s buf fl n).records = n + recs.length := by
  intro f
  induction f with
  | zero => intro s buf fl n _ h; simp [loop] at h
  | succ g ih =>
    intro s buf fl n hb hexit
    unfold loop at hexit ⊢
    simp only at hexit ⊢
    split_ifs at hexit ⊢ with h1 h2
    · obtain ⟨r, hr, hs, _⟩ := read_descriptor_ok_split s buf hb h1
      refine ⟨[r], ?_, ?_, rfl⟩
      · intro x hx; rw [List.mem_singleton.mp hx]; exact hr
      · simpa using hs
    · obtain ⟨r, hr, hs, hbuf⟩ := read_descriptor_ok_split s buf hb h1
      obtain ⟨recs, hrecs, hs2, hn⟩ := ih (read_descriptor s buf).usbDevice
        (read_descriptor s buf).buffer (classify (read_descriptor s buf).buffer fl).1 (n + 1)
        (by rw [hbuf, length_poke]; exact hb) hexit
      refine ⟨r :: recs, ?_, ?_, ?_⟩
      · intro x hx
        rcases List.mem_cons.mp hx with h | h
        · rw [h]; exact hr
        · exact hrecs x h
      · rw [List.flatten_cons, List.append_assoc, ← hs2]; exact hs
      · rw [hn, List.length_cons]; omega

/-! ## Theorems -/

theorem length_initial_buffer :
    (List.replicate sizeof_descriptorBuffer (0 : Byte)).length = 256 :=
  List.length_replicate _ _

theorem loop_positive (f : Nat) (cfg itf epIn epOut suffix buf : List Byte) (n : Nat)
    (hb : buf.length = 256)
    (hf : (cfg ++ (itf ++ (epIn ++ (epOut ++ suffix)))).length < f)
    (hcfg : IsConfiguration cfg) (hitf : IsInterface itf) (hadb : MatchesAdb itf)
    (hin : IsEndpoint epIn) (hinBulk : IsBulk epIn) (hinDir : DirIn epIn)
    (hout : IsEndpoint epOut) (houtBulk : IsBulk epOut) (houtDir : ¬ DirIn epOut) :
    loop f (cfg ++ (itf ++ (epIn ++ (epOut ++ suffix)))) buf Flags.init n =
      { result := true,
        flags := { withinAdbInterface := true, gotBulkIn := true, gotBulkOut := true },
        exit := .earlyExit, usbDevice := suffix,
        descriptorBuffer := poke (poke (poke (poke buf 0 cfg) 0 itf) 0 epIn) 0 epOut,
        records := n + 4 } := by
  have l1 := hcfg.1.two_le
  have l2 := hitf.1.two_le
  have l3 := hin.1.two_le
  have l4 := hout.1.two_le
  simp only [List.length_append] at hf
  have b1 : (poke buf 0 cfg).length = 256 := by rw [length_poke, hb]
  have b2 : (poke (poke buf 0 cfg) 0 itf).length = 256 := by rw [length_poke, b1]
  have b3 : (poke (poke (poke buf 0 cfg) 0 itf) 0 epIn).length = 256 := by
    rw [length_poke, b2]
  rw [loop_record _ cfg _ _ _ _ (by omega) hcfg.1 (by omega),
    classify_configuration cfg _ _ hcfg hb]
  simp only [Bool.false_eq_true, if_false]
  rw [loop_record _ itf _ _ _ _ (by omega) hitf.1 (by omega),
    classify_interface itf _ _ hitf b1]
  simp only [Bool.false_eq_true, if_false, hadb, decide_True]
  rw [loop_record _ epIn _ _ _ _ (by omega) hin.1 (by omega),
    classify_endpoint_inside epIn _ _ hin b2 rfl]
  simp only [hinBulk, hinDir, if_true, Flags.init, Bool.false_eq_true, if_false]
  rw [loop_record _ epOut _ _ _ _ (by omega) hout.1 (by omega),
    classify_endpoint_inside epOut _ _ hout b3 rfl]
  simp [houtBulk, houtDir, Flags.result]

/-- C1 (P4 with early exit): on a stream that starts with a Configuration record, a
matching Interface record of at least 8 bytes, a bulk IN Endpoint record and a bulk OUT
Endpoint record (each of at least 4 bytes), followed by any bytes at all,
`read_descriptors` returns `true`, leaves the loop through the `break` after exactly four
records, and the unread rest of the stream is exactly the suffix. -/
theorem read_descriptors_positive_early_exit (cfg itf epIn epOut suffix : List Byte)
    (hcfg : IsConfiguration cfg) (hitf : IsInterface itf) (hadb : MatchesAdb itf)
    (hin : IsEndpoint epIn) (hinBulk : IsBulk epIn) (hinDir : DirIn epIn)
    (hout : IsEndpoint epOut) (houtBulk : IsBulk epOut) (houtDir : ¬ DirIn epOut) :
    (read_descriptors (some (cfg ++ itf ++ epIn ++ epOut ++ suffix))).result = true
      ∧ (read_descriptors (some (cfg ++ itf ++ epIn ++ epOut ++ suffix))).usbDevice = suffix
      ∧ (read_descriptors (some (cfg ++ itf ++ epIn ++ epOut ++ suffix))).exit
          = LoopExit.earlyExit
      ∧ (read_descriptors (some (cfg ++ itf ++ epIn ++ epOut ++ suffix))).records = 4 := by
  have h := loop_positive ((cfg ++ (itf ++ (epIn ++ (epOut ++ suffix)))).length + 1)
    cfg itf epIn epOut suffix _ 0 length_initial_buffer (Nat.lt_succ_self _)
    hcfg hitf hadb hin hinBulk hinDir hout houtBulk houtDir
  simp only [List.append_assoc]
  unfold read_descriptors
  simp only [h, Nat.zero_add, and_self]

/-- Witness for C1: the theorem applied to a concrete P4 stream followed by three bytes that
form no record. -/
theorem read_descriptors_positive_early_exit_witness :
    (read_descriptors (some (([9, 2, 32, 0, 1, 1, 0, 128, 250] : List Byte)
        ++ [9, 4, 0, 0, 2, 255, 66, 1, 0] ++ [7, 5, 129, 2, 0, 2, 0] ++ [7, 5, 1, 2, 0, 2, 0]
        ++ [200, 1, 7]))).result = true
      ∧ (read_descriptors (some (([9, 2, 32, 0, 1, 1, 0, 128, 250] : List Byte)
        ++ [9, 4, 0, 0, 2, 255, 66, 1, 0] ++ [7, 5, 129, 2, 0, 2, 0] ++ [7, 5, 1, 2, 0, 2, 0]
        ++ [200, 1, 7]))).usbDevice = [200, 1, 7]
      ∧ (read_descriptors (some (([9, 2, 32, 0, 1, 1, 0, 128, 250] : List Byte)
        ++ [9, 4, 0, 0, 2, 255, 66, 1, 0] ++ [7, 5, 129, 2, 0, 2, 0] ++ [7, 5, 1, 2, 0, 2, 0]
        ++ [200, 1, 7]))).exit = LoopExit.earlyExit
      ∧ (read_descriptors (some (([9, 2, 32, 0, 1, 1, 0, 128, 250] : List Byte)
        ++ [9, 4, 0, 0, 2, 255, 66, 1, 0] ++ [7, 5, 129, 2, 0, 2, 0] ++ [7, 5, 1, 2, 0, 2, 0]
        ++ [200, 1, 7]))).records = 4 :=
  read_descriptors_positive_early_exit [9, 2, 32, 0, 1, 1, 0, 128, 250]
    [9, 4, 0, 0, 2, 255, 66, 1, 0] [7, 5, 129, 2, 0, 2, 0] [7, 5, 1, 2, 0, 2, 0] [200, 1, 7]
    (by decide) (by decide) (by decide) (by decide) (by decide) (by decide) (by decide)
    (by decide) (by decide)

/-- C2 (reader contract): for every stream and every prior content of the 256-byte
buffer, `read_descriptor` returns `true` exactly when at least 2 bytes remain, the first
remaining byte `L` is at least 2 and at least `L` bytes remain; and when it returns `true`
the unread rest is the stream without its first `L` bytes and the first `L` bytes of the
buffer are the first `L` bytes of the stream, in order. -/
theorem read_descriptor_contract (s buf : List Byte) (hb : buf.length = 256) :
    ((read_descriptor s buf).ok = true ↔
        2 ≤ s.length ∧ 2 ≤ field s 0 ∧ field s 0 ≤ s.length)
      ∧ ((read_descriptor s buf).ok = true →
          (read_descriptor s buf).usbDevice = s.drop (field s 0)
          ∧ (read_descriptor s buf).usbDevice.length + field s 0 = s.length
          ∧ (read_descriptor s buf).buffer.take (field s 0) = s.take (field s 0)) := by
  match s with
  | [] => simp [read_descriptor_nil]
  | [a] => simp [read_descriptor_single]
  | a :: b :: t =>
    have hf : field (a :: b :: t) 0 = a.val := rfl
    have hlt : a.val < 256 := a.isLt
    rw [hf]
    by_cases h1 : a.val < 2
    · rw [read_descriptor_short_length a b t buf (by omega) h1]
      simp only [Bool.false_eq_true, false_iff, not_and, not_le, false_implies, and_true]
      intro _ h2; omega
    · by_cases h2 : t.length < a.val - 2
      · obtain ⟨e1, _, _⟩ := read_descriptor_short_body a b t buf (by omega) (by omega) h2
        rw [e1]
        simp only [Bool.false_eq_true, false_iff, not_and, not_le, false_implies, and_true,
          List.length_cons]
        intro _ _; omega
      · rw [read_descriptor_whole a b t buf (by omega) (by omega) (by omega)]
        have e2 : a.val = (a.val - 2) + 1 + 1 := by omega
        have e3 : (a :: b :: t.take (a.val - 2)).length = a.val := by
          simp only [List.length_cons, List.length_take]; omega
        refine ⟨by simp only [List.length_cons, true_iff]; omega, fun _ => ⟨?_, ?_, ?_⟩⟩
        · show List.drop (a.val - 2) t = List.drop a.val (a :: b :: t)
          conv => rhs; rw [e2]
          rfl
        · simp only [List.length_drop, List.length_cons]; omega
        · have h3 := take_poke (a :: b :: t.take (a.val - 2)) buf (by omega)
          rw [e3] at h3
          rw [h3]
          conv => rhs; rw [e2]
          rfl

/-- Witness for C2: the contract at a stream holding a 4-byte record and one more byte,
read into the zeroed buffer. -/
theorem read_descriptor_contract_witness :
    (List.replicate 256 (0 : Byte)).length = 256
      ∧ (((read_descriptor [4, 5, 129, 2, 77] (List.replicate 256 0)).ok = true ↔
          2 ≤ ([4, 5, 129, 2, 77] : List Byte).length ∧ 2 ≤ field [4, 5, 129, 2, 77] 0
            ∧ field [4, 5, 129, 2, 77] 0 ≤ ([4, 5, 129, 2, 77] : List Byte).length)
        ∧ ((read_descriptor [4, 5, 129, 2, 77] (List.replicate 256 0)).ok = true →
          (read_descriptor [4, 5, 129, 2, 77] (List.replicate 256 0)).usbDevice
              = List.drop (field [4, 5, 129, 2, 77] 0) [4, 5, 129, 2, 77]
          ∧ (read_descriptor [4, 5, 129, 2, 77] (List.replicate 256 0)).usbDevice.length
              + field [4, 5, 129, 2, 77] 0 = ([4, 5, 129, 2, 77] : List Byte).length
          ∧ (read_descriptor [4, 5, 129, 2, 77] (List.replicate 256 0)).buffer.take
              (field [4, 5, 129, 2, 77] 0)
              = List.take (field [4, 5, 129, 2, 77] 0) [4, 5, 129, 2, 77])) :=
  ⟨List.length_replicate _ _,
    read_descriptor_contract [4, 5, 129, 2, 77] (List.replicate 256 0)
      (List.length_replicate _ _)⟩

/-- C3 (malformed input degrades to "not ADB"): on a stream made of any well-formed records
followed by a structurally bad record (a one-byte header, a length byte below 2, or a body
shorter than declared), if the traversal does not leave through the early exit then it
ends with the failed read of the bad record, after all the well-formed records, and
`read_descriptors` returns `false`. -/
theorem read_descriptors_malformed_false (recs : List (List Byte)) (bad : List Byte)
    (hrecs : ∀ r ∈ recs, IsRecord r) (hbad : IsBadRecord bad)
    (hexit : (read_descriptors (some (recs.flatten ++ bad))).exit ≠ LoopExit.earlyExit) :
    (read_descriptors (some (recs.flatten ++ bad))).exit = LoopExit.readFailed
      ∧ (read_descriptors (some (recs.flatten ++ bad))).records = recs.length
      ∧ (read_descriptors (some (recs.flatten ++ bad))).result = false := by
  have h := loop_records_then_bad bad hbad recs ((recs.flatten ++ bad).length + 1)
    (List.replicate sizeof_descriptorBuffer 0) Flags.init 0 length_initial_buffer
    (Nat.lt_succ_self _) hrecs (by simp [Flags.init])
  unfold read_descriptors at hexit ⊢
  rcases h with h | h
  · exact absurd h hexit
  · simpa only [Nat.zero_add] using h

/-- Witness for C3: a matching Interface record and a bulk IN Endpoint record followed by an
Endpoint record cut short after three of its seven bytes. -/
theorem read_descriptors_malformed_false_witness :
    (read_descriptors (some (([[9, 4, 0, 0, 2, 255, 66, 1, 0], [7, 5, 129, 2, 0, 2, 0]] :
        List (List Byte)).flatten ++ [7, 5, 1]))).exit = LoopExit.readFailed
      ∧ (read_descriptors (some (([[9, 4, 0, 0, 2, 255, 66, 1, 0], [7, 5, 129, 2, 0, 2, 0]] :
        List (List Byte)).flatten ++ [7, 5, 1]))).records
          = ([[9, 4, 0, 0, 2, 255, 66, 1, 0], [7, 5, 129, 2, 0, 2, 0]] :
              List (List Byte)).length
      ∧ (read_descriptors (some (([[9, 4, 0, 0, 2, 255, 66, 1, 0], [7, 5, 129, 2, 0, 2, 0]] :
        List (List Byte)).flatten ++ [7, 5, 1]))).result = false :=
  read_descriptors_malformed_false [[9, 4, 0, 0, 2, 255, 66, 1, 0], [7, 5, 129, 2, 0, 2, 0]]
    [7, 5, 1] (by decide) (by decide) (by decide)

/-- C4, as stated, fails: a 2-byte Interface record that follows a 9-byte matching
Interface record and a Configuration record sets `withinAdbInterface` to `true` from the
class bytes the earlier record left in the buffer, and a 3-byte Endpoint record is counted
as bulk OUT from the attributes byte left by the preceding 7-byte Endpoint record, which
makes `read_descriptors` return `true`. -/
theorem short_records_read_stale_bytes :
    (read_descriptors (some [9, 4, 0, 0, 2, 255, 66, 1, 0, 2, 2])).flags.withinAdbInterface
        = false
      ∧ (read_descriptors
          (some [9, 4, 0, 0, 2, 255, 66, 1, 0, 2, 2, 2, 4])).flags.withinAdbInterface = true
      ∧ peek (read_descriptors
          (some [9, 4, 0, 0, 2, 255, 66, 1, 0, 2, 2, 2, 4])).descriptorBuffer 5 = 255
      ∧ (read_descriptors
          (some [9, 4, 0, 0, 2, 255, 66, 1, 0, 7, 5, 129, 2, 0, 2, 0])).flags.gotBulkOut
            = false
      ∧ (read_descriptors
          (some [9, 4, 0, 0, 2, 255, 66, 1, 0, 7, 5, 129, 2, 0, 2, 0, 3, 5, 1])).flags.gotBulkOut
            = true
      ∧ (read_descriptors
          (some [9, 4, 0, 0, 2, 255, 66, 1, 0, 7, 5, 129, 2, 0, 2, 0, 3, 5, 1])).result
            = true := by
  decide

/-- C4, amended: the buffer is zeroed once, before the loop, and a read overwrites only the
bytes of the record read.  When `read_descriptors` has read every record of a stream of
well-formed records (the last one may have caused the early exit), every buffer byte
(offset below 256) is the byte at that offset of the latest record long enough to hold it,
and zero when there is none; so a field beyond the last record's own length is read from
an earlier record, or as zero.  An Interface record shorter than 8 bytes read into a
buffer that holds zero at offset 7 leaves `withinAdbInterface` false, and an Endpoint
record shorter than 4 bytes read into a buffer that holds zero at offset 3 changes no
flag. -/
theorem short_record_fields_from_buffer (recs : List (List Byte))
    (hrecs : ∀ r ∈ recs, IsRecord r)
    (hall : (read_descriptors (some recs.flatten)).records = recs.length) :
    (∀ i, i < 256 →
        peek (read_descriptors (some recs.flatten)).descriptorBuffer i = staleByte recs i)
      ∧ (∀ (r rest buf : List Byte) (fl : Flags), IsRecord r → buf.length = 256 →
          field r 1 = 4 → r.length < 8 → peek buf 7 = 0 →
          (classify (read_descriptor (r ++ rest) buf).buffer fl).1.withinAdbInterface = false)
      ∧ (∀ (r rest buf : List Byte) (fl : Flags), IsRecord r → buf.length = 256 →
          field r 1 = 5 → r.length < 4 → peek buf 3 = 0 →
          (classify (read_descriptor (r ++ rest) buf).buffer fl).1 = fl) := by
  refine ⟨?_, ?_, ?_⟩
  · intro i hi
    unfold read_descriptors at hall ⊢
    simp only at hall ⊢
    rw [loop_buffer_of_all_read recs _ _ _ _ length_initial_buffer (Nat.lt_succ_self _)
      hrecs (by rw [hall, Nat.zero_add]),
      peek_foldl_poke i recs _ (by rw [length_initial_buffer]; exact hi)]
    unfold staleByte
    cases recs.reverse.find? (fun p => decide (i < p.length)) with
    | some p => rfl
    | none => exact peek_replicate_zero _ _
  · intro r rest buf fl hr hb hty hlen h7
    rw [read_descriptor_record r rest buf hr (by omega)]
    have h1 := peek_poke_record r buf 1 (by have := hr.two_le; omega) (by omega)
    have h7b : peek (poke buf 0 r) 7 = 0 := by
      rw [peek_poke_beyond r buf 7 (by omega), h7]
    simp [classify, h1, hty, h7b]
  · intro r rest buf fl hr hb hty hlen h3
    rw [read_descriptor_record r rest buf hr (by omega)]
    have h1 := peek_poke_record r buf 1 (by have := hr.two_le; omega) (by omega)
    have h3b : peek (poke buf 0 r) 3 = 0 := by
      rw [peek_poke_beyond r buf 3 (by omega), h3]
    by_cases hw : fl.withinAdbInterface = true
    · simp only [classify, offsetof_bDescriptorType, h1, hty, CFG_DESCRIPTOR_TYPE,
        INTERFACE_DESCRIPTOR_TYPE, ENDPOINT_DESCRIPTOR_TYPE, offsetof_bmAttributes, h3b, hw]
      simp
      split_ifs <;> rfl
    · simp [classify, h1, hty, hw]

/-- Witness for C4 amended: after a 9-byte matching Interface record and a 7-byte bulk IN
Endpoint record, a 3-byte Endpoint record is classified with the attributes byte (offset 3)
of the 7-byte record. -/
theorem short_record_fields_from_buffer_witness :
    (∀ r ∈ ([[9, 4, 0, 0, 2, 255, 66, 1, 0], [7, 5, 129, 2, 0, 2, 0], [3, 5, 1]] :
        List (List Byte)), IsRecord r)
      ∧ (read_descriptors (some ([[9, 4, 0, 0, 2, 255, 66, 1, 0], [7, 5, 129, 2, 0, 2, 0],
          [3, 5, 1]] : List (List Byte)).flatten)).records
          = ([[9, 4, 0, 0, 2, 255, 66, 1, 0], [7, 5, 129, 2, 0, 2, 0], [3, 5, 1]] :
              List (List Byte)).length
      ∧ peek (read_descriptors (some ([[9, 4, 0, 0, 2, 255, 66, 1, 0],
          [7, 5, 129, 2, 0, 2, 0], [3, 5, 1]] : List (List Byte)).flatten)).descriptorBuffer 3
          = staleByte [[9, 4, 0, 0, 2, 255, 66, 1, 0], [7, 5, 129, 2, 0, 2, 0], [3, 5, 1]] 3 :=
  ⟨by decide, by decide,
    (short_record_fields_from_buffer
      [[9, 4, 0, 0, 2, 255, 66, 1, 0], [7, 5, 129, 2, 0, 2, 0], [3, 5, 1]]
      (by decide) (by decide)).1 3 (by decide)⟩

/-- C5 (buffer bound): whenever `read_descriptor` gets to the body read (the length byte is
at least 2), the body byte count is at most 253 and header plus body take at most 255
bytes; every buffer offset a call of `read_descriptor` stores to is below 256, on every
stream and buffer; and every field offset the classifier reads lies between 1 and 7, inside
the 256-byte buffer. -/
theorem read_descriptor_buffer_bound :
    (∀ bLength : Byte, ¬ bLength.val < 2 →
        remainingBytes bLength.val ≤ 253
          ∧ sizeof_usb_descriptor + remainingBytes bLength.val ≤ 255)
      ∧ (∀ (s buf : List Byte), ∀ o ∈ (read_descriptor s buf).stores,
          o < sizeof_descriptorBuffer)
      ∧ (∀ o ∈ [offsetof_bDescriptorType, offsetof_bInterfaceClass,
            offsetof_bInterfaceSubClass, offsetof_bInterfaceProtocol,
            offsetof_bEndpointAddress, offsetof_bmAttributes],
          1 ≤ o ∧ o ≤ 7 ∧ o < sizeof_descriptorBuffer) := by
  refine ⟨?_, ?_, ?_⟩
  · intro bLength h
    have := bLength.isLt
    simp only [remainingBytes, sizeof_usb_descriptor]
    omega
  · intro s buf o ho
    have hlt := (peek (poke buf 0 (fread sizeof_usb_descriptor 1 s).data) offsetof_bLength).isLt
    have h2 : (fread sizeof_usb_descriptor 1 s).data.length ≤ 2 := by
      simp only [fread, List.length_take, sizeof_usb_descriptor]; omega
    unfold read_descriptor at ho
    simp only at ho
    split_ifs at ho with h1 h3 h4
    · simp only [List.mem_range] at ho; simp only [sizeof_descriptorBuffer]; omega
    · simp only [List.mem_range] at ho; simp only [sizeof_descriptorBuffer]; omega
    all_goals
      simp only [List.mem_append, List.mem_range, List.mem_map, fread, List.length_take,
        remainingBytes, sizeof_usb_descriptor, Nat.one_mul] at ho
      simp only [sizeof_descriptorBuffer]
      rcases ho with ho | ⟨k, hk, rfl⟩
      · simp only [fread, List.length_take] at h2 ⊢; omega
      · simp only [offsetof_bLength, fread, sizeof_usb_descriptor] at hlt
        omega
  · decide

/-- C6, as stated, fails: on a stream with exactly one byte left `read_descriptor` reports
exactly what it reports at end of stream, the return value `false` and no `syslog`
message. -/
theorem truncated_header_reported_as_end_of_stream :
    (read_descriptor [9] (List.replicate 256 0)).ok
        = (read_descriptor [] (List.replicate 256 0)).ok
      ∧ (read_descriptor [9] (List.replicate 256 0)).log
        = (read_descriptor [] (List.replicate 256 0)).log := by
  rw [read_descriptor_single, read_descriptor_nil]
  exact ⟨rfl, rfl⟩

/-- C6, amended: on a stream with exactly one byte left `read_descriptor` returns `false`
and logs nothing, the same outcome as on a stream with no byte left (the one byte is
consumed); and `read_descriptors` returns `false` on either stream. -/
theorem truncated_header_same_outcome (a : Byte) (buf : List Byte) :
    (read_descriptor [a] buf).ok = false ∧ (read_descriptor [a] buf).log = []
      ∧ (read_descriptor [] buf).ok = false ∧ (read_descriptor [] buf).log = []
      ∧ (read_descriptor [a] buf).usbDevice = []
      ∧ (read_descriptors (some [a])).result = false
      ∧ (read_descriptors (some [])).result = false := by
  refine ⟨?_, ?_, ?_, ?_, ?_, ?_, ?_⟩
  · rw [read_descriptor_single]
  · rw [read_descriptor_single]
  · rw [read_descriptor_nil]
  · rw [read_descriptor_nil]
  · rw [read_descriptor_single]
  · unfold read_descriptors
    simp only
    rw [loop_read_failed _ [a] _ _ _ (Nat.succ_pos _) (by rw [read_descriptor_single])]
    rfl
  · unfold read_descriptors
    simp only
    rw [loop_nil _ _ _ _ (Nat.succ_pos _)]
    rfl

/-- C7 (P3, invalid length): on a stream of at least 2 bytes whose first byte is 0 or 1, a
call of `read_descriptor` on the 256-byte buffer returns `false` having consumed exactly
the 2 header bytes and stored to buffer offsets 0 and 1 only, and `read_descriptors`
returns `false` after that first failed read. -/
theorem read_descriptors_invalid_length (s buf : List Byte) (hlen : 2 ≤ s.length)
    (hfirst : field s 0 < 2) (hb : buf.length = 256) :
    (read_descriptor s buf).ok = false
      ∧ (read_descriptor s buf).usbDevice = s.drop 2
      ∧ (read_descriptor s buf).stores = [0, 1]
      ∧ (read_descriptors (some s)).result = false
      ∧ (read_descriptors (some s)).exit = LoopExit.readFailed
      ∧ (read_descriptors (some s)).records = 0
      ∧ (read_descriptors (some s)).usbDevice = s.drop 2 := by
  match s, hlen, hfirst with
  | a :: b :: t, _, hfirst =>
    have ha : a.val < 2 := hfirst
    refine ⟨?_, ?_, ?_, ?_⟩
    · rw [read_descriptor_short_length a b t buf (by omega) ha]
    · rw [read_descriptor_short_length a b t buf (by omega) ha]; rfl
    · rw [read_descriptor_short_length a b t buf (by omega) ha]
    · unfold read_descriptors
      simp only
      have hz : 0 < (List.replicate sizeof_descriptorBuffer (0 : Byte)).length := by
        rw [length_initial_buffer]; omega
      rw [loop_read_failed _ (a :: b :: t) _ _ _ (Nat.succ_pos _)
        (by rw [read_descriptor_short_length a b t _ hz ha])]
      rw [read_descriptor_short_length a b t _ hz ha]
      exact ⟨rfl, rfl, rfl, rfl⟩

/-- Witness for C7: a stream whose first record declares length 1. -/
theorem read_descriptors_invalid_length_witness :
    2 ≤ ([1, 4, 255, 66, 1] : List Byte).length ∧ field [1, 4, 255, 66, 1] 0 < 2
      ∧ (read_descriptor [1, 4, 255, 66, 1] (List.replicate 256 0)).ok = false
      ∧ (read_descriptors (some [1, 4, 255, 66, 1])).result = false
      ∧ (read_descriptors (some [1, 4, 255, 66, 1])).usbDevice = [255, 66, 1] :=
  ⟨by decide, by decide,
    (read_descriptors_invalid_length [1, 4, 255, 66, 1] (List.replicate 256 0) (by decide)
      (by decide) (List.length_replicate _ _)).1,
    (read_descriptors_invalid_length [1, 4, 255, 66, 1] (List.replicate 256 0) (by decide)
      (by decide) (List.length_replicate _ _)).2.2.2.1,
    (read_descriptors_invalid_length [1, 4, 255, 66, 1] (List.replicate 256 0) (by decide)
      (by decide) (List.length_replicate _ _)).2.2.2.2.2.2⟩

/-- C8 (P6, endpoints outside the interface): on a stream made of a matching Interface
record, a non-matching Interface record (both of at least 8 bytes), a bulk IN Endpoint
record and a bulk OUT Endpoint record, then end of stream, `read_descriptors` reads all
four records, stops at end of stream and returns `false`. -/
theorem read_descriptors_endpoints_outside_interface (itf other epIn epOut : List Byte)
    (hitf : IsInterface itf) (hadb : MatchesAdb itf)
    (hother : IsInterface other) (hnot : ¬ MatchesAdb other)
    (hin : IsEndpoint epIn) (hinBulk : IsBulk epIn) (hinDir : DirIn epIn)
    (hout : IsEndpoint epOut) (houtBulk : IsBulk epOut) (houtDir : ¬ DirIn epOut) :
    (read_descriptors (some (itf ++ other ++ epIn ++ epOut))).result = false
      ∧ (read_descriptors (some (itf ++ other ++ epIn ++ epOut))).exit = LoopExit.readFailed
      ∧ (read_descriptors (some (itf ++ other ++ epIn ++ epOut))).records = 4 := by
  have l1 := hitf.1.two_le
  have l2 := hother.1.two_le
  have e0 : itf ++ other ++ epIn ++ epOut = itf ++ (other ++ [epIn, epOut].flatten) := by
    simp
  have hlen : (itf ++ (other ++ [epIn, epOut].flatten)).length
      = itf.length + (other.length + [epIn, epOut].flatten.length) := by
    simp only [List.length_append]
  rw [e0]
  unfold read_descriptors
  simp only
  have b1 : (poke (List.replicate sizeof_descriptorBuffer (0 : Byte)) 0 itf).length = 256 := by
    rw [length_poke, length_initial_buffer]
  have b2 : (poke (poke (List.replicate sizeof_descriptorBuffer (0 : Byte)) 0 itf) 0
      other).length = 256 := by rw [length_poke, b1]
  rw [loop_record _ itf _ _ _ _ (Nat.succ_pos _) hitf.1
      (by rw [length_initial_buffer]; omega),
    classify_interface itf _ _ hitf length_initial_buffer]
  simp only [Bool.false_eq_true, if_false]
  rw [loop_record _ other _ _ _ _ (by rw [hlen]; omega) hother.1 (by omega),
    classify_interface other _ _ hother b1]
  simp only [Bool.false_eq_true, if_false, hnot, decide_False]
  have h := loop_endpoints_outside [epIn, epOut]
    ((itf ++ (other ++ [epIn, epOut].flatten)).length + 1 - 1 - 1) _
    { withinAdbInterface := false, gotBulkIn := Flags.init.gotBulkIn,
      gotBulkOut := Flags.init.gotBulkOut } (0 + 1 + 1) b2 (by rw [hlen]; omega)
    (by
      intro e he
      simp only [List.mem_cons, List.mem_singleton, List.not_mem_nil, or_false] at he
      rcases he with rfl | rfl
      · exact ⟨hin.1, hin.2.1⟩
      · exact ⟨hout.1, hout.2.1⟩) rfl
  exact ⟨h.1, h.2.1, h.2.2.1⟩

/-- Witness for C8: a matching Interface record, a mass-storage Interface record, then the
two bulk Endpoint records. -/
theorem read_descriptors_endpoints_outside_interface_witness :
    (read_descriptors (some (([9, 4, 0, 0, 2, 255, 66, 1, 0] : List Byte)
        ++ [9, 4, 1, 0, 2, 8, 6, 80, 0] ++ [7, 5, 129, 2, 0, 2, 0]
        ++ [7, 5, 1, 2, 0, 2, 0]))).result = false
      ∧ (read_descriptors (some (([9, 4, 0, 0, 2, 255, 66, 1, 0] : List Byte)
        ++ [9, 4, 1, 0, 2, 8, 6, 80, 0] ++ [7, 5, 129, 2, 0, 2, 0]
        ++ [7, 5, 1, 2, 0, 2, 0]))).exit = LoopExit.readFailed
      ∧ (read_descriptors (some (([9, 4, 0, 0, 2, 255, 66, 1, 0] : List Byte)
        ++ [9, 4, 1, 0, 2, 8, 6, 80, 0] ++ [7, 5, 129, 2, 0, 2, 0]
        ++ [7, 5, 1, 2, 0, 2, 0]))).records = 4 :=
  read_descriptors_endpoints_outside_interface [9, 4, 0, 0, 2, 255, 66, 1, 0]
    [9, 4, 1, 0, 2, 8, 6, 80, 0] [7, 5, 129, 2, 0, 2, 0] [7, 5, 1, 2, 0, 2, 0]
    (by decide) (by decide) (by decide) (by decide) (by decide) (by decide) (by decide)
    (by decide) (by decide) (by decide)

/-- C9 (P7, only one direction): on a stream made of a Configuration record, a matching
Interface record of at least 8 bytes and then any number of bulk Endpoint records of at
least 4 bytes that are all IN or all OUT (the claim's one or more included), then end of
stream, `read_descriptors` reads every record, stops at end of stream and returns
`false`. -/
theorem read_descriptors_one_direction (cfg itf : List Byte) (eps : List (List Byte))
    (hcfg : IsConfiguration cfg) (hitf : IsInterface itf) (hadb : MatchesAdb itf)
    (heps : ∀ e ∈ eps, IsEndpoint e ∧ IsBulk e)
    (hdir : (∀ e ∈ eps, DirIn e) ∨ (∀ e ∈ eps, ¬ DirIn e)) :
    (read_descriptors (some (cfg ++ itf ++ eps.flatten))).result = false
      ∧ (read_descriptors (some (cfg ++ itf ++ eps.flatten))).exit = LoopExit.readFailed
      ∧ (read_descriptors (some (cfg ++ itf ++ eps.flatten))).records = 2 + eps.length := by
  have l1 := hcfg.1.two_le
  have l2 := hitf.1.two_le
  have hlen : (cfg ++ (itf ++ eps.flatten)).length
      = cfg.length + (itf.length + eps.flatten.length) := by
    simp only [List.length_append]
  rw [List.append_assoc]
  unfold read_descriptors
  simp only
  rw [loop_configuration_interface _ cfg itf _ _ _ length_initial_buffer (Nat.lt_succ_self _)
    hcfg hitf]
  have h := loop_endpoints_one_direction eps
    ((cfg ++ (itf ++ eps.flatten)).length + 1 - 1 - 1)
    (poke (poke (List.replicate sizeof_descriptorBuffer (0 : Byte)) 0 cfg) 0 itf)
    { withinAdbInterface := decide (MatchesAdb itf), gotBulkIn := false, gotBulkOut := false }
    (0 + 1 + 1) (by rw [length_poke, length_poke, length_initial_buffer])
    (by rw [hlen]; omega) (fun e he => (heps e he).1) (by simp [hadb])
    (by
      rcases hdir with h | h
      · exact Or.inl ⟨h, rfl⟩
      · exact Or.inr (Or.inl ⟨h, rfl⟩))
  refine ⟨h.1, h.2.1, ?_⟩
  rw [h.2.2]

/-- Witness for C9: a Configuration record, a matching Interface record and three bulk IN
Endpoint records. -/
theorem read_descriptors_one_direction_witness :
    (read_descriptors (some (([9, 2, 32, 0, 1, 1, 0, 128, 250] : List Byte)
        ++ [9, 4, 0, 0, 2, 255, 66, 1, 0]
        ++ ([[7, 5, 129, 2, 0, 2, 0], [7, 5, 130, 2, 0, 2, 0], [4, 5, 131, 6]] :
            List (List Byte)).flatten))).result = false
      ∧ (read_descriptors (some (([9, 2, 32, 0, 1, 1, 0, 128, 250] : List Byte)
        ++ [9, 4, 0, 0, 2, 255, 66, 1, 0]
        ++ ([[7, 5, 129, 2, 0, 2, 0], [7, 5, 130, 2, 0, 2, 0], [4, 5, 131, 6]] :
            List (List Byte)).flatten))).exit = LoopExit.readFailed
      ∧ (read_descriptors (some (([9, 2, 32, 0, 1, 1, 0, 128, 250] : List Byte)
        ++ [9, 4, 0, 0, 2, 255, 66, 1, 0]
        ++ ([[7, 5, 129, 2, 0, 2, 0], [7, 5, 130, 2, 0, 2, 0], [4, 5, 131, 6]] :
            List (List Byte)).flatten))).records
          = 2 + ([[7, 5, 129, 2, 0, 2, 0], [7, 5, 130, 2, 0, 2, 0], [4, 5, 131, 6]] :
            List (List Byte)).length :=
  read_descriptors_one_direction [9, 2, 32, 0, 1, 1, 0, 128, 250]
    [9, 4, 0, 0, 2, 255, 66, 1, 0]
    [[7, 5, 129, 2, 0, 2, 0], [7, 5, 130, 2, 0, 2, 0], [4, 5, 131, 6]]
    (by decide) (by decide) (by decide) (by decide) (Or.inl (by decide))

/-- C10 (P8, non-bulk endpoints): on a stream made of a Configuration record, a matching
Interface record of at least 8 bytes, an Endpoint record with address bit 7 set and an
Endpoint record with address bit 7 clear (each of at least 4 bytes), neither of them with
attributes low bits `0b10`, then end of stream, `read_descriptors` reads the four records,
stops at end of stream and returns `false`. -/
theorem read_descriptors_non_bulk (cfg itf epIn epOut : List Byte)
    (hcfg : IsConfiguration cfg) (hitf : IsInterface itf) (hadb : MatchesAdb itf)
    (hin : IsEndpoint epIn) (hinBulk : ¬ IsBulk epIn) (hinDir : DirIn epIn)
    (hout : IsEndpoint epOut) (houtBulk : ¬ IsBulk epOut) (houtDir : ¬ DirIn epOut) :
    (read_descriptors (some (cfg ++ itf ++ epIn ++ epOut))).result = false
      ∧ (read_descriptors (some (cfg ++ itf ++ epIn ++ epOut))).exit = LoopExit.readFailed
      ∧ (read_descriptors (some (cfg ++ itf ++ epIn ++ epOut))).records = 4 := by
  have l1 := hcfg.1.two_le
  have l2 := hitf.1.two_le
  have e0 : cfg ++ itf ++ epIn ++ epOut = cfg ++ (itf ++ [epIn, epOut].flatten) := by
    simp
  have hlen : (cfg ++ (itf ++ [epIn, epOut].flatten)).length
      = cfg.length + (itf.length + [epIn, epOut].flatten.length) := by
    simp only [List.length_append]
  rw [e0]
  unfold read_descriptors
  simp only
  rw [loop_configuration_interface _ cfg itf _ _ _ length_initial_buffer (Nat.lt_succ_self _)
    hcfg hitf]
  have h := loop_endpoints_one_direction [epIn, epOut]
    ((cfg ++ (itf ++ [epIn, epOut].flatten)).length + 1 - 1 - 1)
    (poke (poke (List.replicate sizeof_descriptorBuffer (0 : Byte)) 0 cfg) 0 itf)
    { withinAdbInterface := decide (MatchesAdb itf), gotBulkIn := false, gotBulkOut := false }
    (0 + 1 + 1) (by rw [length_poke, length_poke, length_initial_buffer])
    (by rw [hlen]; omega)
    (by
      intro e he
      simp only [List.mem_cons, List.mem_singleton, List.not_mem_nil, or_false] at he
      rcases he with rfl | rfl
      · exact hin
      · exact hout)
    (by simp [hadb])
    (Or.inr (Or.inr ⟨by
      intro e he
      simp only [List.mem_cons, List.mem_singleton, List.not_mem_nil, or_false] at he
      rcases he with rfl | rfl
      · exact hinBulk
      · exact houtBulk, by simp⟩))
  exact ⟨h.1, h.2.1, h.2.2⟩

/-- Witness for C10: the P4 stream with isochronous Endpoint records (attributes `0b01`). -/
theorem read_descriptors_non_bulk_witness :
    (read_descriptors (some (([9, 2, 32, 0, 1, 1, 0, 128, 250] : List Byte)
        ++ [9, 4, 0, 0, 2, 255, 66, 1, 0] ++ [7, 5, 129, 1, 0, 2, 0]
        ++ [7, 5, 1, 1, 0, 2, 0]))).result = false
      ∧ (read_descriptors (some (([9, 2, 32, 0, 1, 1, 0, 128, 250] : List Byte)
        ++ [9, 4, 0, 0, 2, 255, 66, 1, 0] ++ [7, 5, 129, 1, 0, 2, 0]
        ++ [7, 5, 1, 1, 0, 2, 0]))).exit = LoopExit.readFailed
      ∧ (read_descriptors (some (([9, 2, 32, 0, 1, 1, 0, 128, 250] : List Byte)
        ++ [9, 4, 0, 0, 2, 255, 66, 1, 0] ++ [7, 5, 129, 1, 0, 2, 0]
        ++ [7, 5, 1, 1, 0, 2, 0]))).records = 4 :=
  read_descriptors_non_bulk [9, 2, 32, 0, 1, 1, 0, 128, 250]
    [9, 4, 0, 0, 2, 255, 66, 1, 0] [7, 5, 129, 1, 0, 2, 0] [7, 5, 1, 1, 0, 2, 0]
    (by decide) (by decide) (by decide) (by decide) (by decide) (by decide) (by decide)
    (by decide) (by decide)

/-- C11 (P5, wrong class): on a stream made of a Configuration record, an Interface record
of at least 8 bytes whose class byte is not `0xFF` (subclass `0x42`, protocol `0x01`), a
bulk IN Endpoint record and a bulk OUT Endpoint record, then end of stream,
`read_descriptors` reads the four records, stops at end of stream and returns `false`. -/
theorem read_descriptors_wrong_class (cfg itf epIn epOut : List Byte)
    (hcfg : IsConfiguration cfg) (hitf : IsInterface itf)
    (hclass : field itf 5 ≠ 0xFF) (hsub : field itf 6 = 0x42) (hproto : field itf 7 = 0x01)
    (hin : IsEndpoint epIn) (hinBulk : IsBulk epIn) (hinDir : DirIn epIn)
    (hout : IsEndpoint epOut) (houtBulk : IsBulk epOut) (houtDir : ¬ DirIn epOut) :
    (read_descriptors (some (cfg ++ itf ++ epIn ++ epOut))).result = false
      ∧ (read_descriptors (some (cfg ++ itf ++ epIn ++ epOut))).exit = LoopExit.readFailed
      ∧ (read_descriptors (some (cfg ++ itf ++ epIn ++ epOut))).records = 4 := by
  have l1 := hcfg.1.two_le
  have l2 := hitf.1.two_le
  have hnot : ¬ MatchesAdb itf := fun h => hclass h.1
  have e0 : cfg ++ itf ++ epIn ++ epOut = cfg ++ (itf ++ [epIn, epOut].flatten) := by
    simp
  have hlen : (cfg ++ (itf ++ [epIn, epOut].flatten)).length
      = cfg.length + (itf.length + [epIn, epOut].flatten.length) := by
    simp only [List.length_append]
  rw [e0]
  unfold read_descriptors
  simp only
  rw [loop_configuration_interface _ cfg itf _ _ _ length_initial_buffer (Nat.lt_succ_self _)
    hcfg hitf]
  have h := loop_endpoints_outside [epIn, epOut]
    ((cfg ++ (itf ++ [epIn, epOut].flatten)).length + 1 - 1 - 1)
    (poke (poke (List.replicate sizeof_descriptorBuffer (0 : Byte)) 0 cfg) 0 itf)
    { withinAdbInterface := decide (MatchesAdb itf), gotBulkIn := false, gotBulkOut := false }
    (0 + 1 + 1) (by rw [length_poke, length_poke, length_initial_buffer])
    (by rw [hlen]; omega)
    (by
      intro e he
      simp only [List.mem_cons, List.mem_singleton, List.not_mem_nil, or_false] at he
      rcases he with rfl | rfl
      · exact ⟨hin.1, hin.2.1⟩
      · exact ⟨hout.1, hout.2.1⟩)
    (by simp [hnot])
  exact ⟨h.1, h.2.1, h.2.2.1⟩

/-- Witness for C11: the P4 stream with a mass-storage class byte (`0x08`). -/
theorem read_descriptors_wrong_class_witness :
    (read_descriptors (some (([9, 2, 32, 0, 1, 1, 0, 128, 250] : List Byte)
        ++ [9, 4, 0, 0, 2, 8, 66, 1, 0] ++ [7, 5, 129, 2, 0, 2, 0]
        ++ [7, 5, 1, 2, 0, 2, 0]))).result = false
      ∧ (read_descriptors (some (([9, 2, 32, 0, 1, 1, 0, 128, 250] : List Byte)
        ++ [9, 4, 0, 0, 2, 8, 66, 1, 0] ++ [7, 5, 129, 2, 0, 2, 0]
        ++ [7, 5, 1, 2, 0, 2, 0]))).exit = LoopExit.readFailed
      ∧ (read_descriptors (some (([9, 2, 32, 0, 1, 1, 0, 128, 250] : List Byte)
        ++ [9, 4, 0, 0, 2, 8, 66, 1, 0] ++ [7, 5, 129, 2, 0, 2, 0]
        ++ [7, 5, 1, 2, 0, 2, 0]))).records = 4 :=
  read_descriptors_wrong_class [9, 2, 32, 0, 1, 1, 0, 128, 250]
    [9, 4, 0, 0, 2, 8, 66, 1, 0] [7, 5, 129, 2, 0, 2, 0] [7, 5, 1, 2, 0, 2, 0]
    (by decide) (by decide) (by decide) (by decide) (by decide) (by decide) (by decide)
    (by decide) (by decide) (by decide) (by decide)

/-- C13 (Interface transition): from any flags and any content of the 256-byte buffer, the
loop iteration on an Interface record of at least 8 bytes reads the record, does not break,
and leaves `withinAdbInterface` true exactly when the record's class, subclass and protocol
bytes are `0xFF`, `0x42`, `0x01`, whatever `withinAdbInterface` was before; `gotBulkIn` and
`gotBulkOut` are unchanged. -/
theorem interface_transition (r rest buf : List Byte) (fl : Flags) (hr : IsInterface r)
    (hb : buf.length = 256) :
    (read_descriptor (r ++ rest) buf).ok = true
      ∧ (read_descriptor (r ++ rest) buf).usbDevice = rest
      ∧ (classify (read_descriptor (r ++ rest) buf).buffer fl).2 = false
      ∧ ((classify (read_descriptor (r ++ rest) buf).buffer fl).1.withinAdbInterface = true
          ↔ MatchesAdb r)
      ∧ (classify (read_descriptor (r ++ rest) buf).buffer fl).1.gotBulkIn = fl.gotBulkIn
      ∧ (classify (read_descriptor (r ++ rest) buf).buffer fl).1.gotBulkOut
          = fl.gotBulkOut := by
  rw [read_descriptor_record r rest buf hr.1 (by omega)]
  simp only [classify_interface r buf fl hr hb, decide_eq_true_eq, and_self]

/-- Witness for C13: a non-matching Interface record met while all three flags are set. -/
theorem interface_transition_witness :
    (classify (read_descriptor ([9, 4, 1, 0, 2, 8, 6, 80, 0] ++ [7, 5])
        (List.replicate 256 0)).buffer
        { withinAdbInterface := true, gotBulkIn := true, gotBulkOut := true }).1.withinAdbInterface
        = true ↔ MatchesAdb [9, 4, 1, 0, 2, 8, 6, 80, 0] :=
  (interface_transition [9, 4, 1, 0, 2, 8, 6, 80, 0] [7, 5] (List.replicate 256 0)
    { withinAdbInterface := true, gotBulkIn := true, gotBulkOut := true } (by decide)
    (List.length_replicate _ _)).2.2.2.1

/-- C14 (Endpoint transition): from any content of the 256-byte buffer, the loop iteration on
an Endpoint record reads the record and then: with `withinAdbInterface` true and a record
of at least 4 bytes, a bulk record with address bit 7 set sets `gotBulkIn` and keeps
`gotBulkOut`, a bulk record with address bit 7 clear sets `gotBulkOut` and keeps
`gotBulkIn`, a non-bulk record changes no flag, and `withinAdbInterface` stays true in all
three cases; with `withinAdbInterface` false no flag changes. -/
theorem endpoint_transition (r rest buf : List Byte) (fl : Flags) (hr : IsRecord r)
    (hty : field r 1 = 5) (hb : buf.length = 256) :
    (read_descriptor (r ++ rest) buf).ok = true
      ∧ (fl.withinAdbInterface = true → 4 ≤ r.length →
          (IsBulk r → DirIn r →
            (classify (read_descriptor (r ++ rest) buf).buffer fl).1.gotBulkIn = true
            ∧ (classify (read_descriptor (r ++ rest) buf).buffer fl).1.gotBulkOut
                = fl.gotBulkOut
            ∧ (classify (read_descriptor (r ++ rest) buf).buffer fl).1.withinAdbInterface
                = true)
          ∧ (IsBulk r → ¬ DirIn r →
            (classify (read_descriptor (r ++ rest) buf).buffer fl).1.gotBulkOut = true
            ∧ (classify (read_descriptor (r ++ rest) buf).buffer fl).1.gotBulkIn
                = fl.gotBulkIn
            ∧ (classify (read_descriptor (r ++ rest) buf).buffer fl).1.withinAdbInterface
                = true)
          ∧ (¬ IsBulk r → (classify (read_descriptor (r ++ rest) buf).buffer fl).1 = fl))
      ∧ (fl.withinAdbInterface = false →
          (classify (read_descriptor (r ++ rest) buf).buffer fl).1 = fl) := by
  rw [read_descriptor_record r rest buf hr (by omega)]
  refine ⟨rfl, ?_, ?_⟩
  · intro hw hlen
    rw [classify_endpoint_inside r buf fl ⟨hr, hty, hlen⟩ hb hw]
    refine ⟨?_, ?_, ?_⟩
    · intro hbk hd
      simp only [hbk, hd, if_true, hw, and_self]
    · intro hbk hd
      simp only [hbk, hd, if_true, if_false, hw, and_self]
    · intro hbk
      simp only [hbk, if_false]
  · intro hw
    rw [classify_endpoint_outside r buf fl hr hty hb hw]

/-- Witness for C14: a bulk IN Endpoint record met inside a matching interface. -/
theorem endpoint_transition_witness :
    IsRecord [7, 5, 129, 2, 0, 2, 0] ∧ field [7, 5, 129, 2, 0, 2, 0] 1 = 5
      ∧ (classify (read_descriptor ([7, 5, 129, 2, 0, 2, 0] ++ [7, 5, 1])
          (List.replicate 256 0)).buffer
          { withinAdbInterface := true, gotBulkIn := false, gotBulkOut := false }).1.gotBulkIn
          = true :=
  ⟨by decide, by decide,
    ((endpoint_transition [7, 5, 129, 2, 0, 2, 0] [7, 5, 1] (List.replicate 256 0)
      { withinAdbInterface := true, gotBulkIn := false, gotBulkOut := false } (by decide)
      (by decide) (List.length_replicate _ _)).2.1 rfl (by decide)).1 (by decide)
      (by decide) |>.1⟩

/-- C15 (Configuration transition): from any flags and any content of the 256-byte buffer,
the loop iteration on a Configuration record (any length from 2) reads the record, does not
break, and leaves `withinAdbInterface` false while `gotBulkIn` and `gotBulkOut` keep the
values they had. -/
theorem configuration_transition (r rest buf : List Byte) (fl : Flags)
    (hr : IsConfiguration r) (hb : buf.length = 256) :
    (read_descriptor (r ++ rest) buf).ok = true
      ∧ (classify (read_descriptor (r ++ rest) buf).buffer fl).2 = false
      ∧ (classify (read_descriptor (r ++ rest) buf).buffer fl).1.withinAdbInterface = false
      ∧ (classify (read_descriptor (r ++ rest) buf).buffer fl).1.gotBulkIn = fl.gotBulkIn
      ∧ (classify (read_descriptor (r ++ rest) buf).buffer fl).1.gotBulkOut
          = fl.gotBulkOut := by
  rw [read_descriptor_record r rest buf hr.1 (by omega)]
  simp only [classify_configuration r buf fl hr hb, and_self]

/-- Witness for C15: a 2-byte Configuration record met with `gotBulkIn` set. -/
theorem configuration_transition_witness :
    IsConfiguration [2, 2]
      ∧ (classify (read_descriptor ([2, 2] ++ [9, 4]) (List.replicate 256 0)).buffer
          { withinAdbInterface := true, gotBulkIn := true, gotBulkOut := false }).1.gotBulkIn
          = true :=
  ⟨by decide,
    (configuration_transition [2, 2] [9, 4] (List.replicate 256 0)
      { withinAdbInterface := true, gotBulkIn := true, gotBulkOut := false } (by decide)
      (List.length_replicate _ _)).2.2.2.1⟩

/-- C18, as stated, fails: a Configuration record met with `gotBulkIn` set leaves `gotBulkIn`
set, so the flags after it are not the initial flags; the stream of a matching Interface
record, a bulk IN Endpoint record and a Configuration record ends with `gotBulkIn` set. -/
theorem configuration_keeps_bulk_flags :
    (classify (read_descriptor [9, 2, 32, 0, 1, 1, 0, 128, 250] (List.replicate 256 0)).buffer
        { withinAdbInterface := true, gotBulkIn := true, gotBulkOut := false }).1
        ≠ Flags.init
      ∧ (read_descriptors (some [9, 4, 0, 0, 2, 255, 66, 1, 0, 7, 5, 129, 2, 0, 2, 0,
          9, 2, 32, 0, 1, 1, 0, 128, 250])).flags
          = { withinAdbInterface := false, gotBulkIn := true, gotBulkOut := false } := by
  decide

/-- C18, amended: the loop iteration on a Configuration record clears `withinAdbInterface`
only; the flags after it are the initial flags exactly when `gotBulkIn` and `gotBulkOut`
were both false before the record. -/
theorem configuration_resets_only_within (r rest buf : List Byte) (fl : Flags)
    (hr : IsConfiguration r) (hb : buf.length = 256) :
    (classify (read_descriptor (r ++ rest) buf).buffer fl).1
        = { withinAdbInterface := false, gotBulkIn := fl.gotBulkIn,
            gotBulkOut := fl.gotBulkOut }
      ∧ ((classify (read_descriptor (r ++ rest) buf).buffer fl).1 = Flags.init
          ↔ fl.gotBulkIn = false ∧ fl.gotBulkOut = false) := by
  rw [read_descriptor_record r rest buf hr.1 (by omega),
    classify_configuration r buf fl hr hb]
  refine ⟨rfl, ?_⟩
  cases fl with
  | mk w i o => simp [Flags.init]

/-- Witness for C18 amended: a Configuration record met with all three flags clear gives the
initial flags. -/
theorem configuration_resets_only_within_witness :
    IsConfiguration [9, 2, 32, 0, 1, 1, 0, 128, 250]
      ∧ ((classify (read_descriptor ([9, 2, 32, 0, 1, 1, 0, 128, 250] ++ [])
          (List.replicate 256 0)).buffer Flags.init).1 = Flags.init
          ↔ Flags.init.gotBulkIn = false ∧ Flags.init.gotBulkOut = false) :=
  ⟨by decide,
    (configuration_resets_only_within [9, 2, 32, 0, 1, 1, 0, 128, 250] []
      (List.replicate 256 0) Flags.init (by decide) (List.length_replicate _ _)).2⟩

/-- C16 (cross-configuration false positive): there is a stream of well-formed records in
which no matching interface has both a bulk IN and a bulk OUT endpoint among its own
records, and on which `read_descriptors` returns `true`: Configuration, matching
Interface, bulk IN Endpoint, Configuration, matching Interface, bulk OUT Endpoint.  (With
the second Configuration and Interface records taken out the first interface does have
both endpoints.) -/
theorem cross_configuration_false_positive :
    ∃ recs : List (List Byte),
      recs = [[9, 2, 32, 0, 1, 1, 0, 128, 250], [9, 4, 0, 0, 1, 255, 66, 1, 0],
          [7, 5, 129, 2, 0, 2, 0], [9, 2, 32, 0, 1, 2, 0, 128, 250],
          [9, 4, 0, 0, 1, 255, 66, 1, 0], [7, 5, 1, 2, 0, 2, 0]]
        ∧ (∀ r ∈ recs, IsRecord r)
        ∧ hasCompleteAdbInterface recs = false
        ∧ hasCompleteAdbInterface (recs.take 3 ++ recs.drop 5) = true
        ∧ (read_descriptors (some recs.flatten)).result = true := by
  refine ⟨_, rfl, ?_, ?_, ?_, ?_⟩ <;> decide

/-- C17, as stated, fails: no stream makes `read_descriptors` return `true` when the loop
is left otherwise than through the `break`. -/
theorem no_true_without_early_exit :
    ¬ ∃ s : List Byte, (read_descriptors (some s)).exit ≠ LoopExit.earlyExit
        ∧ (read_descriptors (some s)).result = true := by
  rintro ⟨s, hexit, hres⟩
  rw [read_descriptors_not_early_false (some s) hexit] at hres
  exact Bool.noConfusion hres

/-- C17, amended: `read_descriptors` returns `true` only through the early exit; a traversal
that ends at end of stream or on a failed read returns `false`, because `gotBulkIn` and
`gotBulkOut` are both set only in the iteration that executes the `break`. -/
theorem true_only_by_early_exit (opened : Option (List Byte))
    (h : (read_descriptors opened).result = true) :
    (read_descriptors opened).exit = LoopExit.earlyExit := by
  by_contra hexit
  rw [read_descriptors_not_early_false opened hexit] at h
  exact Bool.noConfusion h

/-- Witness for C17 amended: the P4 stream, whose second bulk Endpoint record is the last
record of the stream. -/
theorem true_only_by_early_exit_witness :
    (read_descriptors (some [9, 2, 32, 0, 1, 1, 0, 128, 250, 9, 4, 0, 0, 2, 255, 66, 1, 0,
        7, 5, 129, 2, 0, 2, 0, 7, 5, 1, 2, 0, 2, 0])).result = true
      ∧ (read_descriptors (some [9, 2, 32, 0, 1, 1, 0, 128, 250, 9, 4, 0, 0, 2, 255, 66, 1, 0,
        7, 5, 129, 2, 0, 2, 0, 7, 5, 1, 2, 0, 2, 0])).exit = LoopExit.earlyExit :=
  ⟨by decide, true_only_by_early_exit _ (by decide)⟩

/-- C19 (finite traversal): every call of `read_descriptor` that returns `true` consumes at
least 2 bytes; so on a stream of `n` bytes the loop of `read_descriptors` is left by a
failed read or by the `break`, never for lack of iterations, after at most `n / 2` records,
and any iteration budget above `n / 2` gives the same outcome. -/
theorem finite_traversal (s : List Byte) :
    (∀ (t buf : List Byte), (read_descriptor t buf).ok = true →
        (read_descriptor t buf).usbDevice.length + 2 ≤ t.length)
      ∧ ((read_descriptors (some s)).exit = LoopExit.readFailed
          ∨ (read_descriptors (some s)).exit = LoopExit.earlyExit)
      ∧ (read_descriptors (some s)).records ≤ s.length / 2
      ∧ (∀ f, s.length / 2 < f →
          loop f s (List.replicate sizeof_descriptorBuffer 0) Flags.init 0
            = read_descriptors (some s)) := by
  refine ⟨read_descriptor_consumes, ?_, ?_, ?_⟩
  · have h1 := loop_exit_ne_outOfFuel (s.length + 1) s
      (List.replicate sizeof_descriptorBuffer 0) Flags.init 0 (Nat.lt_succ_self _)
    have h2 : ∀ (f : Nat) (t buf : List Byte) (fl : Flags) (n : Nat),
        (loop f t buf fl n).exit ≠ LoopExit.notOpened := by
      intro f
      induction f with
      | zero => intro t buf fl n; simp [loop]
      | succ g ih =>
        intro t buf fl n
        unfold loop
        simp only
        split_ifs
        · simp
        · exact ih _ _ _ _
        · simp
    have h3 := h2 (s.length + 1) s (List.replicate sizeof_descriptorBuffer 0) Flags.init 0
    unfold read_descriptors
    simp only
    cases he : (loop (s.length + 1) s (List.replicate sizeof_descriptorBuffer 0)
        Flags.init 0).exit with
    | notOpened => exact absurd he h3
    | readFailed => exact Or.inl rfl
    | earlyExit => exact Or.inr rfl
    | outOfFuel => exact absurd he h1
  · have := loop_records_le (s.length + 1) s (List.replicate sizeof_descriptorBuffer 0)
      Flags.init 0
    unfold read_descriptors
    simp only
    omega
  · intro f hf
    unfold read_descriptors
    simp only
    exact loop_fuel_irrelevant f (s.length + 1) s _ _ _ hf (by omega)

/-- C12 (P10, unrelated records): take a P4 stream (Configuration, matching Interface of at
least 8 bytes, bulk IN and bulk OUT Endpoint of at least 4 bytes) and insert any number of
well-formed Device records (type byte 1) before, between and after its four records;
`read_descriptors` returns the same result as on the P4 stream itself, namely `true`,
leaving the loop through the `break` at the bulk OUT record with the Device records after
it unread. -/
theorem read_descriptors_device_records_ignored (cfg itf epIn epOut : List Byte)
    (d0 d1 d2 d3 d4 : List (List Byte))
    (hcfg : IsConfiguration cfg) (hitf : IsInterface itf) (hadb : MatchesAdb itf)
    (hin : IsEndpoint epIn) (hinBulk : IsBulk epIn) (hinDir : DirIn epIn)
    (hout : IsEndpoint epOut) (houtBulk : IsBulk epOut) (houtDir : ¬ DirIn epOut)
    (h0 : ∀ d ∈ d0, IsRecord d ∧ field d 1 = 1) (h1 : ∀ d ∈ d1, IsRecord d ∧ field d 1 = 1)
    (h2 : ∀ d ∈ d2, IsRecord d ∧ field d 1 = 1) (h3 : ∀ d ∈ d3, IsRecord d ∧ field d 1 = 1)
    (h4 : ∀ d ∈ d4, IsRecord d ∧ field d 1 = 1) :
    (read_descriptors (some (d0.flatten ++ cfg ++ d1.flatten ++ itf ++ d2.flatten ++ epIn
        ++ d3.flatten ++ epOut ++ d4.flatten))).result
        = (read_descriptors (some (cfg ++ itf ++ epIn ++ epOut))).result
      ∧ (read_descriptors (some (d0.flatten ++ cfg ++ d1.flatten ++ itf ++ d2.flatten ++ epIn
        ++ d3.flatten ++ epOut ++ d4.flatten))).result = true
      ∧ (read_descriptors (some (d0.flatten ++ cfg ++ d1.flatten ++ itf ++ d2.flatten ++ epIn
        ++ d3.flatten ++ epOut ++ d4.flatten))).exit = LoopExit.earlyExit
      ∧ (read_descriptors (some (d0.flatten ++ cfg ++ d1.flatten ++ itf ++ d2.flatten ++ epIn
        ++ d3.flatten ++ epOut ++ d4.flatten))).usbDevice = d4.flatten := by
  have horig : (read_descriptors (some (cfg ++ itf ++ epIn ++ epOut))).result = true := by
    have e : cfg ++ itf ++ epIn ++ epOut = cfg ++ (itf ++ (epIn ++ (epOut ++ []))) := by
      simp
    rw [e]
    unfold read_descriptors
    simp only
    rw [loop_positive _ cfg itf epIn epOut [] _ 0 length_initial_buffer (Nat.lt_succ_self _)
      hcfg hitf hadb hin hinBulk hinDir hout houtBulk houtDir]
  have h := loop_positive_with_devices
    ((d0.flatten ++ (cfg ++ (d1.flatten ++ (itf ++ (d2.flatten ++ (epIn
      ++ (d3.flatten ++ (epOut ++ d4.flatten)))))))).length + 1)
    cfg itf epIn epOut (List.replicate sizeof_descriptorBuffer 0) d0 d1 d2 d3 d4.flatten 0
    length_initial_buffer (Nat.lt_succ_self _) hcfg hitf hadb hin hinBulk hinDir hout
    houtBulk houtDir h0 h1 h2 h3
  rw [horig]
  simp only [List.append_assoc]
  unfold read_descriptors
  simp only
  exact ⟨h.1, h.1, h.2.1, h.2.2.1⟩

/-- Witness for C12: the P4 stream with Device records before the Configuration record,
between the Interface and the first Endpoint record, and after the last record. -/
theorem read_descriptors_device_records_ignored_witness :
    (read_descriptors (some (([[18, 1, 0, 2, 0, 0, 0, 64, 209, 24, 231, 78, 0, 1, 1, 2, 3, 1]] :
          List (List Byte)).flatten ++ [9, 2, 32, 0, 1, 1, 0, 128, 250]
        ++ ([] : List (List Byte)).flatten ++ [9, 4, 0, 0, 2, 255, 66, 1, 0]
        ++ ([[2, 1], [4, 1, 255, 255]] : List (List Byte)).flatten ++ [7, 5, 129, 2, 0, 2, 0]
        ++ ([] : List (List Byte)).flatten ++ [7, 5, 1, 2, 0, 2, 0]
        ++ ([[3, 1, 9]] : List (List Byte)).flatten))).result = true :=
  (read_descriptors_device_records_ignored [9, 2, 32, 0, 1, 1, 0, 128, 250]
    [9, 4, 0, 0, 2, 255, 66, 1, 0] [7, 5, 129, 2, 0, 2, 0] [7, 5, 1, 2, 0, 2, 0]
    [[18, 1, 0, 2, 0, 0, 0, 64, 209, 24, 231, 78, 0, 1, 1, 2, 3, 1]] []
    [[2, 1], [4, 1, 255, 255]] [] [[3, 1, 9]]
    (by decide) (by decide) (by decide) (by decide) (by decide) (by decide) (by decide)
    (by decide) (by decide) (by decide) (by decide) (by decide) (by decide) (by decide)).2.1

/-- C20 (soundness of a positive answer): whenever `read_descriptors` returns `true` on a
stream, the bytes it consumed are a list `recs` of whole records, and if every Interface
record among them has at least 8 bytes and every Endpoint record at least 4, then (i) the
last record consumed is an Endpoint record with attributes low bits `0b10`, (ii) the
records before it end inside a matching interface: the most recent Interface record has
the triple `0xFF/0x42/0x01` and no Interface or Configuration record lies between it and
the last record, and (iii) the consumed records hold a bulk Endpoint record with address
bit 7 set and one with address bit 7 clear, each of them inside a matching interface. -/
theorem positive_answer_sound (s : List Byte)
    (hres : (read_descriptors (some s)).result = true) :
    ∃ recs : List (List Byte),
      (∀ r ∈ recs, IsRecord r)
        ∧ s = recs.flatten ++ (read_descriptors (some s)).usbDevice
        ∧ (read_descriptors (some s)).records = recs.length
        ∧ ((∀ r ∈ recs, (field r 1 = 4 → 8 ≤ r.length) ∧ (field r 1 = 5 → 4 ≤ r.length)) →
            (∃ (before : List (List Byte)) (last : List Byte),
                recs = before ++ [last] ∧ field last 1 = 5 ∧ IsBulk last ∧ InsideAdb before)
              ∧ SeenBulk true recs ∧ SeenBulk false recs) := by
  have hexit : (read_descriptors (some s)).exit = .earlyExit := by
    by_contra h
    rw [read_descriptors_not_early_false _ h] at hres
    exact Bool.noConfusion hres
  unfold read_descriptors at hres hexit ⊢
  simp only at hres hexit ⊢
  obtain ⟨recs, hrecs, hs, hn⟩ := loop_early_exit_split _ s _ Flags.init 0
    (by rw [length_initial_buffer]; omega) hexit
  refine ⟨recs, hrecs, hs, by rw [hn, Nat.zero_add], fun hsz => ?_⟩
  generalize (loop (s.length + 1) s (List.replicate sizeof_descriptorBuffer 0)
    Flags.init 0).usbDevice = rest at hs
  subst hs
  have hj : FlagsJustified [] Flags.init := by
    simp [FlagsJustified, Flags.init]
  have key := loop_sound rest recs _ _ Flags.init 0 [] length_initial_buffer
    (Nat.lt_succ_self _) (fun r hr => ⟨hrecs r hr, hsz r hr⟩) hj
    (by rw [hn, Nat.zero_add]) hres
  simpa only [List.nil_append] using key

/-- Witness for C20: the P4 stream followed by two bytes that are never read. -/
theorem positive_answer_sound_witness :
    ∃ recs : List (List Byte),
      (∀ r ∈ recs, IsRecord r)
        ∧ ([9, 2, 32, 0, 1, 1, 0, 128, 250, 9, 4, 0, 0, 2, 255, 66, 1, 0,
            7, 5, 129, 2, 0, 2, 0, 7, 5, 1, 2, 0, 2, 0, 1, 1] : List Byte)
          = recs.flatten ++ (read_descriptors (some [9, 2, 32, 0, 1, 1, 0, 128, 250,
              9, 4, 0, 0, 2, 255, 66, 1, 0, 7, 5, 129, 2, 0, 2, 0, 7, 5, 1, 2, 0, 2, 0,
              1, 1])).usbDevice
        ∧ (read_descriptors (some [9, 2, 32, 0, 1, 1, 0, 128, 250,
              9, 4, 0, 0, 2, 255, 66, 1, 0, 7, 5, 129, 2, 0, 2, 0, 7, 5, 1, 2, 0, 2, 0,
              1, 1])).records = recs.length
        ∧ ((∀ r ∈ recs, (field r 1 = 4 → 8 ≤ r.length) ∧ (field r 1 = 5 → 4 ≤ r.length)) →
            (∃ (before : List (List Byte)) (last : List Byte),
                recs = before ++ [last] ∧ field last 1 = 5 ∧ IsBulk last ∧ InsideAdb before)
              ∧ SeenBulk true recs ∧ SeenBulk false recs) :=
  positive_answer_sound [9, 2, 32, 0, 1, 1, 0, 128, 250, 9, 4, 0, 0, 2, 255, 66, 1, 0,
    7, 5, 129, 2, 0, 2, 0, 7, 5, 1, 2, 0, 2, 0, 1, 1] (by decide)

end AdbProbe
